import Mathlib

/-!
# Trail game engine: a shallow embedding

A verification development of the theme-agnostic trail game engine
(`TrailGameEngine`).  JavaScript numbers are modelled as rationals (no
claim under study depends on float rounding), `Math.random()` draws as an
explicit stream of rationals threaded through the operations, and thrown
exceptions as `Except`.  Field and function names follow the source.
-/

namespace Trail

/-- The stream of `Math.random()` draws.  Each call pops one value; a
well-formed stream has every element in `[0, 1)`. -/
def Rand := List ℚ

/-- Pop one draw from the stream (an exhausted stream yields 0, which is a
legal `Math.random()` value). -/
def nextRand : Rand → ℚ × Rand
  | [] => (0, [])
  | x :: xs => (x, xs)

/-- JavaScript `optNum || default`: `undefined`, and the falsy number 0,
fall back to the default. -/
def jsOrQ (o : Option ℚ) (d : ℚ) : ℚ :=
  match o with
  | some x => if x = 0 then d else x
  | none => d

/-- JavaScript `optStr || default`: `undefined`/`null`, and the falsy empty
string, fall back to the default. -/
def jsOrStr (o : Option String) (d : String) : String :=
  match o with
  | some s => if s = "" then d else s
  | none => d

/-- Truthiness of an optional number: `undefined` and 0 are falsy. -/
def jsTruthyQ (o : Option ℚ) : Bool :=
  match o with
  | some v => decide (v ≠ 0)
  | none => false

/-- `Math.min(m, x)` where `m` is an optional theme configuration value.
When the theme omits the bound JavaScript would produce `NaN`; every theme
reaching this code configures the bound, so the absent branch (modelled as
the identity) is unreachable under the theorems' hypotheses. -/
def jsMinOpt (m : Option ℚ) (x : ℚ) : ℚ :=
  match m with
  | some v => min v x
  | none => x

/-- Lookup in a string-keyed object literal, e.g. `paceGas[this.state.pace]`. -/
def findValQ (l : List (String × ℚ)) (k : String) : Option ℚ :=
  (l.find? (fun p => p.1 == k)).map (fun p => p.2)

/-! ## Data model: the theme descriptor -/

/-- One entry of `theme.resources` (name, startValue, optional max). -/
structure ResourceSpec where
  name : String
  startValue : ℚ
  max : Option ℚ
deriving Repr, DecidableEq

/-- `theme.resources`: the five named resource specifications. -/
structure ThemeResources where
  fuel : ResourceSpec
  food : ResourceSpec
  morale : ResourceSpec
  currency : ResourceSpec
  specialItem : ResourceSpec
deriving Repr, DecidableEq

/-- `theme.resources[key]` for the five fixed resource keys. -/
def themeResGet (tr : ThemeResources) : String → Option ResourceSpec
  | "fuel" => some tr.fuel
  | "food" => some tr.food
  | "morale" => some tr.morale
  | "currency" => some tr.currency
  | "specialItem" => some tr.specialItem
  | _ => none

/-- One band of `theme.journey.phases`. -/
structure Phase where
  name : String
  startMile : ℚ
  endMile : ℚ
deriving Repr, DecidableEq

/-- `theme.journey`. -/
structure Journey where
  totalDistance : ℚ
  phases : List Phase
  endLocation : String
deriving Repr, DecidableEq

/-- `location.landmarkData`. -/
structure LandmarkData where
  moraleBoost : Option ℚ
deriving Repr, DecidableEq

/-- One entry of `theme.locations`. -/
structure Location where
  name : String
  distance : ℚ
  hasLandmark : Bool
  landmarkData : Option LandmarkData
deriving Repr, DecidableEq

/-- One entry of `theme.events.doubts`. -/
structure Doubt where
  name : String
  trigger : String
  moraleDrain : ℚ
  abandonReason : Option String
deriving Repr, DecidableEq

/-- Profession modifiers (`profession.modifiers`); each field is read with
optional chaining in the source. -/
structure Modifiers where
  vibeDrainByPhase : Option (List (String × ℚ))
  forageBonus : Option ℚ
  forageMoraleChange : Option ℚ
  antagonistTargetChance : Option ℚ
deriving Repr, DecidableEq

/-- One entry of `theme.professions`. -/
structure Profession where
  id : String
  displayName : String
  modifiers : Modifiers
  startingCurrency : ℚ
deriving Repr, DecidableEq

/-- One entry of `theme.shop.items` (`type` is a reserved word in Lean,
hence `itemType`). -/
structure ShopItem where
  id : String
  name : String
  cost : ℚ
  itemType : String
  amount : ℚ
deriving Repr, DecidableEq

/-- `theme.shop`. -/
structure Shop where
  items : List ShopItem
deriving Repr, DecidableEq

/-- `theme.mystery` (optional time-boxed mode). -/
structure Mystery where
  enabled : Bool
  timeLimit : ℚ
deriving Repr, DecidableEq

/-! ## Data model: game state -/

/-- `state.resources`: the five named quantities. -/
structure Resources where
  fuel : ℚ
  food : ℚ
  morale : ℚ
  currency : ℚ
  specialItem : ℚ
deriving Repr, DecidableEq

/-- One party member.  `abandonReason` is set by the daily morale update;
`reason` is the separate field the paranoia fail branch writes. -/
structure PartyMember where
  name : String
  doubting : Bool
  doubt : Option String
  abandoned : Bool
  abandonReason : Option String
  reason : Option String
deriving Repr, DecidableEq

/-- One entry of the `abandonedThisTurn` list returned by the daily party
morale update. -/
structure AbandonRecord where
  name : String
  reason : String
deriving Repr, DecidableEq

/-- The engine's mutable state (`this.state`).  `items` is the
string-keyed collectible map; `guitar: true` is stored as the number 1
(only its truthiness is ever read). -/
structure GameState where
  resources : Resources
  distance : ℚ
  totalDistance : ℚ
  currentLocationIndex : ℕ
  month : ℕ
  day : ℚ
  pace : String
  rations : String
  weather : String
  profession : Option String
  professionName : Option String
  professionModifiers : Option Modifiers
  scoreMultiplier : Option ℚ
  alive : Bool
  party : List PartyMember
  usedEvents : List String
  forageCount : ℕ
  items : List (String × ℚ)
  abandonedThisTurn : List AbandonRecord
deriving Repr, DecidableEq

/-- `state.items[name]`. -/
def itemsGet (l : List (String × ℚ)) (k : String) : Option ℚ :=
  (l.find? (fun p => p.1 == k)).map (fun p => p.2)

/-- `state.items[name] = v` (replace, or append a new key). -/
def itemsSet : List (String × ℚ) → String → ℚ → List (String × ℚ)
  | [], k, v => [(k, v)]
  | p :: ps, k, v => if p.1 == k then (k, v) :: ps else p :: itemsSet ps k v

/-! ## Data model: events -/

/-- An event condition: either a direct state predicate (a JavaScript
function) or a magic string such as `hasGuitar`. -/
inductive Condition where
  | pred (p : GameState → Bool)
  | str (s : String)

/-- One event of a per-phase pool; only the fields the engine reads are
modelled. -/
structure Event where
  id : Option String
  text : String
  condition : Option Condition
  copEvent : Bool
  weight : Option ℚ

/-- `theme.events`: per-phase pools (each may be absent) and the doubt
catalog. -/
structure Events where
  early : Option (List Event)
  middle : Option (List Event)
  late : Option (List Event)
  doubts : List Doubt

/-- `theme.events[phase]` for a dynamic phase name (the engine indexes the
events object with the phase string; any other key is `undefined`). -/
def eventsGet (e : Events) : String → Option (List Event)
  | "early" => e.early
  | "middle" => e.middle
  | "late" => e.late
  | _ => none

/-- The theme descriptor (read-only configuration). -/
structure Theme where
  name : String
  version : String
  resources : ThemeResources
  journey : Journey
  locations : List Location
  events : Events
  professions : List Profession
  shop : Shop
  mystery : Option Mystery

/-- One entry of `this.eventHistory`. -/
structure HistoryEntry where
  event : Event
  month : ℕ
  day : ℚ

/-- The engine object: the theme, the state, and the event history. -/
structure Engine where
  theme : Theme
  state : GameState
  eventHistory : List HistoryEntry

/-! ## Engine operations -/

/-- `initializeGameState()`: the state built from theme defaults. -/
def initializeGameState (theme : Theme) : GameState :=
  { resources :=
      { fuel := theme.resources.fuel.startValue
        food := theme.resources.food.startValue
        morale := theme.resources.morale.startValue
        currency := theme.resources.currency.startValue
        specialItem := theme.resources.specialItem.startValue }
    distance := 0
    totalDistance := theme.journey.totalDistance
    currentLocationIndex := 0
    month := 5
    day := 1
    pace := "steady"
    rations := "normal"
    weather := "clear"
    profession := none
    professionName := none
    professionModifiers := none
    scoreMultiplier := none
    alive := true
    party := []
    usedEvents := []
    forageCount := 0
    items := []
    abandonedThisTurn := [] }

/-- `setProfession(professionId)`; an unknown id throws. -/
def setProfession (theme : Theme) (s : GameState) (professionId : String) :
    Except String GameState :=
  match theme.professions.find? (fun p => p.id == professionId) with
  | none => Except.error "Profession not found"
  | some p =>
    let s := { s with
      profession := some professionId
      professionName := some p.displayName
      professionModifiers := some p.modifiers
      resources := { s.resources with currency := p.startingCurrency } }
    let mult : ℚ :=
      if professionId = "dealer" then 8 / 10
      else if professionId = "dropout" then 1
      else if professionId = "artist" then 13 / 10
      else 1
    Except.ok { s with scoreMultiplier := some mult }

/-- `initializeParty(memberNames)`. -/
def initializeParty (s : GameState) (memberNames : List String) : GameState :=
  { s with party := memberNames.map (fun n =>
      { name := n, doubting := false, doubt := none, abandoned := false
        abandonReason := none, reason := none }) }

/-- `getCurrentPhase()`: first phase whose `[startMile, endMile)` contains
the distance, else the last phase.  (On an empty phase list the source
would throw; themes always configure phases, the empty branch returns a
dummy name.) -/
def getCurrentPhase (theme : Theme) (s : GameState) : String :=
  match theme.journey.phases.find?
      (fun p => decide (p.startMile ≤ s.distance ∧ s.distance < p.endMile)) with
  | some p => p.name
  | none =>
    match theme.journey.phases.getLast? with
    | some p => p.name
    | none => ""

/-- The simplified 7-entry calendar table `monthDays`. -/
def monthDays : List ℚ := [31, 30, 31, 30, 31, 31, 30]

/-- One test-and-roll step of `advanceTime`'s while loop, with explicit
recursion fuel.  When the month index is out of the table (never reached:
the wrap keeps it below 7) the JavaScript comparison against `undefined`
is false and the loop exits. -/
def advanceLoop : ℕ → ℕ → ℚ → ℕ × ℚ
  | 0, month, day => (month, day)
  | fuel + 1, month, day =>
    match monthDays[month]? with
    | none => (month, day)
    | some md =>
      if md < day then
        let month := month + 1
        let month := if 7 ≤ month then 0 else month
        advanceLoop fuel month (day - md)
      else (month, day)

/-- Recursion fuel for the roll loop: every iteration subtracts a month
length of at least 30 and only runs while the day exceeds it, so
`⌈day⌉` iterations always suffice. -/
def loopFuel (day : ℚ) : ℕ := (Int.ceil day).toNat

/-- `advanceTime(days)`: add to the day counter, then roll months. -/
def advanceTime (days : ℚ) (month : ℕ) (day : ℚ) : ℕ × ℚ :=
  let day := day + days
  advanceLoop (loopFuel day) month day

/-- `getMilesPerDay()`. -/
def getMilesPerDay (s : GameState) : ℚ :=
  let paceMiles : List (String × ℚ) := [("mellow", 30), ("steady", 50), ("rush", 70)]
  jsOrQ (findValQ paceMiles s.pace) 50

/-- The record returned by `getConsumptionRates()`. -/
structure Consumption where
  fuel : ℚ
  food : ℚ
  moraleBase : ℚ
deriving Repr, DecidableEq

/-- `getConsumptionRates()`. -/
def getConsumptionRates (theme : Theme) (s : GameState) : Consumption :=
  let paceGas : List (String × ℚ) := [("mellow", 8), ("steady", 12), ("rush", 18)]
  let rationFood : List (String × ℚ) := [("bare", 4), ("normal", 8), ("feast", 15)]
  let professionMoraleDrain :=
    jsOrQ (s.professionModifiers.bind (fun m =>
      m.vibeDrainByPhase.bind (fun l => findValQ l (getCurrentPhase theme s)))) 5
  let paceModifier : ℚ :=
    (if s.pace == "rush" then 3 else 0) + (if s.pace == "mellow" then -2 else 0)
  let rationModifier : ℚ :=
    (if s.rations == "bare" then 2 else 0) + (if s.rations == "feast" then -2 else 0)
  let weatherModifier : ℚ :=
    (if s.weather == "bad" then 8 else 0) + (if s.weather == "rain" then 3 else 0)
  let weatherFoodModifier : ℚ := if s.weather == "hot" then 3 else 0
  { fuel := jsOrQ (findValQ paceGas s.pace) 12
    food := jsOrQ (findValQ rationFood s.rations) 8 + weatherFoodModifier
    moraleBase := professionMoraleDrain + paceModifier + rationModifier + weatherModifier }

/-- `getProfessionBaseDrain()`.  The source reads `vibeDrainByPhase` off
`state.profession`, which holds the profession id *string*, so the lookup
is always `undefined`, `|| {}` turns it into an empty object, and the
function returns 0 for every state (0 directly when the profession is
null). -/
def getProfessionBaseDrain (s : GameState) : ℚ :=
  match s.profession with
  | none => 0
  | some _ => 0

/-- `updateWeather()`: one uniform draw mapped to the four weather levels. -/
def updateWeather (s : GameState) (rand : Rand) : GameState × Rand :=
  let n := nextRand rand
  let r := n.1
  let rand := n.2
  let w :=
    if r < 7 / 10 then "clear"
    else if r < 17 / 20 then "rain"
    else if r < 19 / 20 then "hot"
    else "bad"
  ({ s with weather := w }, rand)

/-! ## `updatePartyMorale()` -/

/-- The step function counting how many members should be doubting
(sequential `if`s in the source, the last matching one wins). -/
def targetDoubters (vibes : ℚ) : ℕ :=
  if vibes < 30 then 3 else if vibes < 50 then 2 else if vibes < 75 then 1 else 0

/-- The doubt catalog filtered by the active problem class (high paranoia
only / low belief only / both with an even coin flip / neither defaulting
to low belief). -/
def pickAvailableDoubts (theme : Theme) (paranoia belief : ℚ) (rand : Rand) :
    List Doubt × Rand :=
  let highParanoia := 50 ≤ paranoia
  let lowBelief := belief < 50
  if highParanoia ∧ ¬lowBelief then
    (theme.events.doubts.filter (fun d => d.trigger == "highParanoia"), rand)
  else if lowBelief ∧ ¬highParanoia then
    (theme.events.doubts.filter (fun d => d.trigger == "lowBelief"), rand)
  else if highParanoia ∧ lowBelief then
    let n := nextRand rand
    let r := n.1
    let rand := n.2
    let useParanoiaDoubt := r < 1 / 2
    (theme.events.doubts.filter (fun d =>
      d.trigger == (if useParanoiaDoubt then "highParanoia" else "lowBelief")), rand)
  else
    (theme.events.doubts.filter (fun d => d.trigger == "lowBelief"), rand)

/-- Choose the doubt assigned to one newly promoted member: class filter,
fallback to the full catalog when the filter is empty, then one uniform
index draw.  (An out-of-range index only arises for draws outside `[0,1)`
or an empty catalog, where the source would throw.) -/
def assignDoubt (theme : Theme) (s : GameState) (rand : Rand) :
    Option String × Rand :=
  let paranoia := s.resources.specialItem
  let belief := s.resources.morale
  let pd := pickAvailableDoubts theme paranoia belief rand
  let availableDoubts :=
    if pd.1.isEmpty then theme.events.doubts else pd.1
  let n := nextRand pd.2
  let idx := (Int.floor (n.1 * (availableDoubts.length : ℚ))).toNat
  (availableDoubts[idx]?.map (fun d => d.name), n.2)

/-- The promotion loop: walk the roster in order, promoting up to `k`
non-abandoned non-doubting members (the source iterates the precomputed
filtered array; the resources it reads do not change during the loop). -/
def promoteLoop (theme : Theme) (s : GameState) :
    List PartyMember → ℕ → Rand → List PartyMember × Rand
  | [], _, rand => ([], rand)
  | m :: ms, 0, rand => (m :: ms, rand)
  | m :: ms, k + 1, rand =>
    if ¬m.abandoned ∧ ¬m.doubting then
      let ad := assignDoubt theme s rand
      let r := promoteLoop theme s ms k ad.2
      ({ m with doubting := true, doubt := ad.1 } :: r.1, r.2)
    else
      let r := promoteLoop theme s ms (k + 1) rand
      (m :: r.1, r.2)

/-- The demotion pass (`vibes > 75`): clear every non-abandoned doubter. -/
def demote (party : List PartyMember) : List PartyMember :=
  party.map (fun m =>
    if ¬m.abandoned ∧ m.doubting then { m with doubting := false, doubt := none }
    else m)

/-- The drain pass: each non-abandoned doubting member whose assigned doubt
is found in the catalog drains the morale by its configured amount. -/
def drainLoop (doubts : List Doubt) : List PartyMember → ℚ → ℚ
  | [], morale => morale
  | m :: ms, morale =>
    if m.abandoned ∨ ¬m.doubting then drainLoop doubts ms morale
    else
      match m.doubt.bind (fun dn => doubts.find? (fun d => d.name == dn)) with
      | some d => drainLoop doubts ms (morale - d.moraleDrain)
      | none => drainLoop doubts ms morale

/-- The morale-driven abandonment chance as a function of the vibes
snapshot. -/
def moraleAbandonChance (vibes : ℚ) : ℚ :=
  if vibes ≤ 0 then 1
  else if vibes < 30 then 1 / 10 + 9 / 10 * (30 - vibes) / 30
  else if vibes < 50 then 1 / 20 + 1 / 20 * (50 - vibes) / 20
  else if vibes < 75 then 1 / 20 * (75 - vibes) / 25
  else 0

/-- The paranoia-driven abandonment chance as a function of the
`specialItem` value. -/
def paranoiaAbandonChanceFn (paranoia : ℚ) : ℚ :=
  if 100 ≤ paranoia then 1
  else if 85 ≤ paranoia then 1 / 5 + 4 / 5 * (paranoia - 85) / 15
  else if 70 ≤ paranoia then 1 / 20 + 3 / 20 * (paranoia - 70) / 15
  else 0

/-- The abandonment pass: one uniform draw per non-abandoned doubting
member against the max of the two chances.  The source compares
`paranoiaAbandonChance` against the *already maxed* `abandonChance`
(strictly), so its paranoia-specific reason branch can never fire. -/
def abandonLoop (doubts : List Doubt) (vibes paranoia : ℚ) :
    List PartyMember → Rand → List PartyMember × List AbandonRecord × Rand
  | [], rand => ([], [], rand)
  | m :: ms, rand =>
    if m.abandoned ∨ ¬m.doubting then
      let r := abandonLoop doubts vibes paranoia ms rand
      (m :: r.1, r.2.1, r.2.2)
    else
      let mChance := moraleAbandonChance vibes
      let pChance := paranoiaAbandonChanceFn paranoia
      let abandonChance := max mChance pChance
      let n := nextRand rand
      if n.1 < abandonChance then
        let doubt := m.doubt.bind (fun dn => doubts.find? (fun d => d.name == dn))
        let why :=
          if pChance > abandonChance ∧ pChance > 1 / 10 then
            "became too paranoid and fled"
          else jsOrStr (doubt.bind (fun d => d.abandonReason)) "gave up on the trip"
        let m' := { m with abandoned := true, abandonReason := some why }
        let r := abandonLoop doubts vibes paranoia ms n.2
        (m' :: r.1, { name := m.name, reason := why } :: r.2.1, r.2.2)
      else
        let r := abandonLoop doubts vibes paranoia ms n.2
        (m :: r.1, r.2.1, r.2.2)

/-- `updatePartyMorale()`: promotion, demotion, drain, abandonment, in the
source's order.  `vibes` is the morale snapshot taken on entry; the
abandonment pass reads the (unchanged) `specialItem` and the snapshot. -/
def updatePartyMorale (theme : Theme) (s : GameState) (rand : Rand) :
    GameState × List AbandonRecord × Rand :=
  let vibes := s.resources.morale
  let target := targetDoubters vibes
  let currentDoubters := (s.party.filter (fun m => !m.abandoned && m.doubting)).length
  let pr :=
    if currentDoubters < target then
      promoteLoop theme s s.party (target - currentDoubters) rand
    else (s.party, rand)
  let party2 := if 75 < vibes ∧ 0 < currentDoubters then demote pr.1 else pr.1
  let morale3 := drainLoop theme.events.doubts party2 s.resources.morale
  let ab :=
    abandonLoop theme.events.doubts vibes s.resources.specialItem party2 pr.2
  ({ s with party := ab.1
            resources := { s.resources with morale := morale3 } }, ab.2.1, ab.2.2)

/-! ## Arrival, travel, effects -/

/-- The result of `checkLocationArrival()` when a location is reached. -/
inductive ArrivalResult where
  | win (loc : Location)
  | arrival (loc : Location)
deriving Repr, DecidableEq

/-- `checkLocationArrival()`: advance by at most one location, reset the
forage counter, apply the capped landmark morale boost, and report a win
when the new location is the configured end location. -/
def checkLocationArrival (theme : Theme) (s : GameState) :
    Option ArrivalResult × GameState :=
  match theme.locations[s.currentLocationIndex + 1]? with
  | none => (none, s)
  | some nextLoc =>
    if nextLoc.distance ≤ s.distance then
      let s := { s with currentLocationIndex := s.currentLocationIndex + 1
                        forageCount := 0 }
      let s :=
        match nextLoc.landmarkData with
        | some ld =>
          if nextLoc.hasLandmark ∧ jsTruthyQ ld.moraleBoost then
            { s with resources := { s.resources with
                morale := jsMinOpt theme.resources.morale.max
                  (s.resources.morale + ld.moraleBoost.getD 0) } }
          else s
        | none => s
      if nextLoc.name = theme.journey.endLocation then
        (some (ArrivalResult.win nextLoc), { s with alive := false })
      else (some (ArrivalResult.arrival nextLoc), s)
    else (none, s)

/-- `travel()`: one day forward.  Miles and consumption are computed from
the state on entry; fuel always depletes; food depletes unless the food
resource is the accumulating `Evidence`; herbs (the special item) absorb
the profession part of the morale drain; then weather redraw, party morale
update, and the arrival check. -/
def travel (theme : Theme) (s : GameState) (rand : Rand) :
    Option ArrivalResult × GameState × Rand :=
  let miles := getMilesPerDay s
  let consumption := getConsumptionRates theme s
  let s := { s with distance := s.distance + miles }
  let t := advanceTime 1 s.month s.day
  let s := { s with month := t.1, day := t.2 }
  let s := { s with resources :=
    { s.resources with fuel := s.resources.fuel - consumption.fuel } }
  let s :=
    if theme.resources.food.name = "Evidence" then s
    else { s with resources :=
      { s.resources with food := s.resources.food - consumption.food } }
  let s :=
    if 0 < s.resources.specialItem then
      let si := s.resources.specialItem - 2
      let si := if si < 0 then 0 else si
      let minimalDrain := consumption.moraleBase - getProfessionBaseDrain s
      { s with resources := { s.resources with
          specialItem := si
          morale := s.resources.morale - max 0 minimalDrain } }
    else
      { s with resources := { s.resources with
          morale := s.resources.morale - consumption.moraleBase } }
  let uw := updateWeather s rand
  let ump := updatePartyMorale theme uw.1 uw.2
  let s := { ump.1 with abandonedThisTurn := ump.2.1 }
  let rand := ump.2.2
  let arr := checkLocationArrival theme s
  (arr.1, arr.2, rand)

/-- Cap one resource at its configured max after adding an effect delta
(`resourceConfig && resourceConfig.max`: an absent max, and the falsy
max 0, leave the value uncapped). -/
def capResource (spec : ResourceSpec) (v : ℚ) : ℚ :=
  match spec.max with
  | some mx => if mx = 0 then v else min mx v
  | none => v

/-- Apply one key of an effects map: `distance` adds distance, `days`
forwards to the calendar, a resource key adds and caps, unknown keys are
ignored. -/
def applyOneEffect (theme : Theme) (s : GameState) (kv : String × ℚ) : GameState :=
  let key := kv.1
  let value := kv.2
  if key = "distance" then { s with distance := s.distance + value }
  else if key = "days" then
    let t := advanceTime value s.month s.day
    { s with month := t.1, day := t.2 }
  else if key = "fuel" then
    { s with resources := { s.resources with
        fuel := capResource theme.resources.fuel (s.resources.fuel + value) } }
  else if key = "food" then
    { s with resources := { s.resources with
        food := capResource theme.resources.food (s.resources.food + value) } }
  else if key = "morale" then
    { s with resources := { s.resources with
        morale := capResource theme.resources.morale (s.resources.morale + value) } }
  else if key = "currency" then
    { s with resources := { s.resources with
        currency := capResource theme.resources.currency (s.resources.currency + value) } }
  else if key = "specialItem" then
    { s with resources := { s.resources with
        specialItem := capResource theme.resources.specialItem
          (s.resources.specialItem + value) } }
  else s

/-- The final pass of `applyEffects`: floor every resource except currency
at 0. -/
def clampNonCurrency (r : Resources) : Resources :=
  { fuel := max 0 r.fuel
    food := max 0 r.food
    morale := max 0 r.morale
    currency := r.currency
    specialItem := max 0 r.specialItem }

/-- `applyEffects(effects)`: a null/undefined map is a no-op; otherwise
apply each key in order and then floor the non-currency resources. -/
def applyEffects (theme : Theme) (s : GameState)
    (effects : Option (List (String × ℚ))) : GameState :=
  match effects with
  | none => s
  | some es =>
    let s := es.foldl (applyOneEffect theme) s
    { s with resources := clampNonCurrency s.resources }

/-! ## Fail conditions -/

/-- The result of `checkFailConditions()` when a branch fires. -/
inductive FailResult where
  | fail (why : String)
  | moraleAbandonment (member : PartyMember)
  | paranoiaAbandonment (member : PartyMember)
deriving Repr, DecidableEq

/-- Apply `f` to the `k`-th non-abandoned member of the roster (the
mutation of `stillHere[k]`, an alias into the party array); `none` when
fewer than `k + 1` members are active. -/
def updateActiveAt (f : PartyMember → PartyMember) :
    List PartyMember → ℕ → List PartyMember × Option PartyMember
  | [], _ => ([], none)
  | m :: ms, k =>
    if m.abandoned then
      let r := updateActiveAt f ms k
      (m :: r.1, r.2)
    else
      match k with
      | 0 => ((f m) :: ms, some (f m))
      | k + 1 =>
        let r := updateActiveAt f ms k
        (m :: r.1, r.2)

/-- Whether the time-boxed mode fail condition holds
(`theme.mystery && theme.mystery.enabled` and the day past the limit). -/
def mysteryExpired (theme : Theme) (s : GameState) : Bool :=
  match theme.mystery with
  | some m => m.enabled && decide (m.timeLimit < s.day)
  | none => false

/-- The fixed list of paranoia abandonment reasons. -/
def paranoiaReasons : List String :=
  ["fled into the desert muttering about surveillance",
   "destroyed their phone and hitchhiked to Canada",
   "joined a commune to go off the grid",
   "locked themselves in a motel room covered in tinfoil",
   "bought a one-way ticket to remote Alaska",
   "disappeared without a trace (probably witness protection)"]

/-- The final paranoia branch of `checkFailConditions()` (reached when no
earlier branch fires): a paranoia-configured theme at `specialItem ≥ 100`
force-abandons one uniformly picked active member, sets its `reason`
field from the fixed list, and resets the special item to 80.  The
`none` victim branch is unreachable for draws in `[0,1)` (there the
source would throw on an undefined victim). -/
def checkParanoiaBranch (theme : Theme) (s : GameState) (rand : Rand) :
    Option FailResult × GameState × Rand :=
  if theme.resources.specialItem.name = "Paranoia" ∧ 100 ≤ s.resources.specialItem then
    let stillHere := s.party.filter (fun m => !m.abandoned)
    if 0 < stillHere.length then
      let n1 := nextRand rand
      let k := (Int.floor (n1.1 * (stillHere.length : ℚ))).toNat
      let n2 := nextRand n1.2
      let j := (Int.floor (n2.1 * (6 : ℚ))).toNat
      let upd := updateActiveAt
        (fun m => { m with abandoned := true, reason := paranoiaReasons[j]? })
        s.party k
      match upd.2 with
      | some victim =>
        (some (FailResult.paranoiaAbandonment victim),
         { s with party := upd.1
                  resources := { s.resources with specialItem := 80 } }, n2.2)
      | none => (none, { s with party := upd.1 }, n2.2)
    else (none, s, rand)
  else (none, s, rand)

/-- `checkFailConditions()`: first match wins — all abandoned, no fuel,
starved, time expired (all terminal); then the non-terminal morale and
paranoia abandonment branches.  The morale branch abandons one uniformly
picked active member and resets the morale to 20.  (As in
`checkParanoiaBranch`, the `none` victim branch is unreachable for draws
in `[0,1)`.) -/
def checkFailConditions (theme : Theme) (s : GameState) (rand : Rand) :
    Option FailResult × GameState × Rand :=
  if s.party.all (fun m => m.abandoned) then
    (some (FailResult.fail "allAbandoned"), { s with alive := false }, rand)
  else if s.resources.fuel ≤ 0 then
    (some (FailResult.fail "noFuel"), { s with alive := false }, rand)
  else if s.resources.food ≤ -20 then
    (some (FailResult.fail "starved"), { s with alive := false }, rand)
  else if mysteryExpired theme s then
    (some (FailResult.fail "timeExpired"), { s with alive := false }, rand)
  else if s.resources.morale ≤ 0 then
    let stillHere := s.party.filter (fun m => !m.abandoned)
    if 0 < stillHere.length then
      let n := nextRand rand
      let k := (Int.floor (n.1 * (stillHere.length : ℚ))).toNat
      let upd := updateActiveAt (fun m => { m with abandoned := true }) s.party k
      match upd.2 with
      | some victim =>
        (some (FailResult.moraleAbandonment victim),
         { s with party := upd.1
                  resources := { s.resources with morale := 20 } }, n.2)
      | none => (none, { s with party := upd.1 }, n.2)
    else checkParanoiaBranch theme s rand
  else checkParanoiaBranch theme s rand

/-! ## Forage, rest, shop -/

/-- The data part of `forage()`'s result (the presentation message is
omitted). -/
structure ForageResult where
  foodFound : ℚ
  moralePenalty : ℚ
  forageMoraleChange : ℚ
deriving Repr, DecidableEq

/-- `forage()`: random food in 10..24 scaled by the profession bonus,
capped at the food max, with a progressive morale penalty for repeat
foraging at one location. -/
def forage (theme : Theme) (s : GameState) (rand : Rand) :
    ForageResult × GameState × Rand :=
  let forageBonus := jsOrQ (s.professionModifiers.bind (fun m => m.forageBonus)) 0
  let forageMoraleChange :=
    jsOrQ (s.professionModifiers.bind (fun m => m.forageMoraleChange)) 0
  let n := nextRand rand
  let rand := n.2
  let foodFound : ℚ := ((Int.floor (n.1 * 15) : ℤ) : ℚ) + 10
  let foodFound : ℚ := ((Int.floor (foodFound * (1 + forageBonus)) : ℤ) : ℚ)
  let moralePenalty : ℚ :=
    if s.forageCount = 0 then 0 else if s.forageCount = 1 then -5 else -10
  let s := { s with resources := { s.resources with
      food := jsMinOpt theme.resources.food.max (s.resources.food + foodFound) } }
  let s := { s with resources := { s.resources with
      morale := s.resources.morale + forageMoraleChange + moralePenalty } }
  let s := { s with forageCount := s.forageCount + 1 }
  ({ foodFound := foodFound, moralePenalty := moralePenalty
     forageMoraleChange := forageMoraleChange }, s, rand)

/-- `rest(days)`: refuse below 10 food; otherwise spend 10 food, advance
the calendar, and clear every member's doubting state when the morale
exceeds 60 (the success flag is the Bool; messages are omitted). -/
def rest (s : GameState) (days : ℚ) : Bool × GameState :=
  if s.resources.food < 10 then (false, s)
  else
    let s := { s with resources :=
      { s.resources with food := s.resources.food - 10 } }
    let t := advanceTime days s.month s.day
    let s := { s with month := t.1, day := t.2 }
    let s :=
      if 60 < s.resources.morale then
        { s with party := s.party.map (fun m =>
            { m with doubting := false, doubt := none }) }
      else s
    (true, s)

/-- The outcome of `buyItem` (messages omitted). -/
inductive BuyResult where
  | notFound
  | notEnoughCash
  | bought
deriving Repr, DecidableEq

/-- `buyItem(itemId)`: unknown id and insufficient cash fail; resource
items clamp the target resource into `[0, max]`; parts accumulate;
a guitar sets the item flag and lifts the morale to `min(max, 100)`. -/
def buyItem (theme : Theme) (s : GameState) (itemId : String) :
    BuyResult × GameState :=
  match theme.shop.items.find? (fun i => i.id == itemId) with
  | none => (BuyResult.notFound, s)
  | some item =>
    if s.resources.currency < item.cost then (BuyResult.notEnoughCash, s)
    else
      let s := { s with resources :=
        { s.resources with currency := s.resources.currency - item.cost } }
      let s :=
        if item.itemType = "fuel" ∨ item.itemType = "food" ∨
            item.itemType = "specialItem" ∨ item.itemType = "morale" then
          let newVal (cur : ℚ) (mx : Option ℚ) : ℚ :=
            max 0 (jsMinOpt mx (cur + item.amount))
          if item.itemType = "fuel" then
            { s with resources := { s.resources with
                fuel := newVal s.resources.fuel theme.resources.fuel.max } }
          else if item.itemType = "food" then
            { s with resources := { s.resources with
                food := newVal s.resources.food theme.resources.food.max } }
          else if item.itemType = "morale" then
            { s with resources := { s.resources with
                morale := newVal s.resources.morale theme.resources.morale.max } }
          else
            { s with resources := { s.resources with
                specialItem := newVal s.resources.specialItem
                  theme.resources.specialItem.max } }
        else if item.itemType = "parts" then
          let newParts := jsOrQ (itemsGet s.items "parts") 0 + item.amount
          { s with items := itemsSet s.items "parts" newParts }
        else if item.itemType = "guitar" then
          let s := { s with items := itemsSet s.items "guitar" 1 }
          { s with resources := { s.resources with
              morale := jsMinOpt theme.resources.morale.max 100 } }
        else s
      (BuyResult.bought, s)

/-! ## Event selection -/

/-- The de-duplication key of an event: its explicit id, else its text. -/
def eventKey (e : Event) : String := jsOrStr e.id e.text

/-- `checkEventCondition(condition)`: a function condition is applied to
the state; a string matching `has<Item>` (the regex wants at least one
character after `has`; the newline corner cases of `.`/`$` are not
modelled, no theme uses such strings) is resolved against the item
counters with the first character lowercased; anything else is true. -/
def checkEventCondition (s : GameState) (c : Condition) : Bool :=
  match c with
  | Condition.pred p => p s
  | Condition.str str =>
    if str.startsWith "has" ∧ 3 < str.length then
      let tail := str.drop 3
      let itemName := String.mk (match tail.toList with
        | ch :: chs => ch.toLower :: chs
        | [] => [])
      jsTruthyQ (itemsGet s.items itemName)
    else true

/-- The weighted draw loop: subtract weights (default 1) in pool order and
stop at the first event leaving the remainder at or below 0. -/
def pickWeighted : ℚ → List Event → Option Event
  | _, [] => none
  | random, e :: es =>
    let random := random - jsOrQ e.weight 1
    if random ≤ 0 then some e else pickWeighted random es

/-- The selection half of `getRandomEvent()` on the final filtered pool:
empty pool is the no-event no-op; otherwise one weighted draw.  The winner
is recorded in the used set and the history; the fallback
`availableEvents[0]` (only reachable with nonpositive weights) is returned
unrecorded, as in the source. -/
def selectEvent (availableEvents : List Event) (s : GameState)
    (hist : List HistoryEntry) (rand : Rand) :
    Option Event × GameState × List HistoryEntry × Rand :=
  if availableEvents.isEmpty then (none, s, hist, rand)
  else
    let totalWeight := availableEvents.foldl (fun acc e => acc + jsOrQ e.weight 1) 0
    let n := nextRand rand
    let rand := n.2
    let random := n.1 * totalWeight
    match pickWeighted random availableEvents with
    | some e =>
      let s := { s with usedEvents := s.usedEvents ++ [eventKey e] }
      (some e, s, hist ++ [{ event := e, month := s.month, day := s.day }], rand)
    | none => (availableEvents.head?, s, hist, rand)

/-- `getRandomEvent()`: phase pool (union of all pools when empty), drop
used events (reset when exhausted), drop events whose condition is false,
boost antagonist-class weights by the profession's target chance, then the
weighted selection of `selectEvent`. -/
def getRandomEvent (theme : Theme) (s : GameState) (hist : List HistoryEntry)
    (rand : Rand) : Option Event × GameState × List HistoryEntry × Rand :=
  let phase := getCurrentPhase theme s
  let eventPool := (eventsGet theme.events phase).getD []
  let eventPool :=
    if eventPool.isEmpty then
      (theme.events.early.getD []) ++ (theme.events.middle.getD []) ++
        (theme.events.late.getD [])
    else eventPool
  let availableEvents :=
    eventPool.filter (fun e => !(s.usedEvents.contains (eventKey e)))
  let availableEvents := if availableEvents.isEmpty then eventPool else availableEvents
  let availableEvents := availableEvents.filter (fun e =>
    match e.condition with
    | none => true
    | some c => checkEventCondition s c)
  let copTargetChance :=
    jsOrQ (s.professionModifiers.bind (fun m => m.antagonistTargetChance)) 0
  let availableEvents :=
    if 0 < copTargetChance then
      availableEvents.map (fun e =>
        if e.copEvent then
          { e with weight := some (jsOrQ e.weight 1 * (1 + copTargetChance)) }
        else e)
    else availableEvents
  selectEvent availableEvents s hist rand

/-! ## Save and load -/

/-- The snapshot blob produced by `saveGame()`.  The JSON round-trip deep
copy is the identity on this pure data; `eventHistory` is optional because
`loadGame` accepts blobs without it. -/
structure SaveData where
  themeName : String
  themeVersion : String
  state : GameState
  eventHistory : Option (List HistoryEntry)
  timestamp : ℕ

/-- `saveGame()`. -/
def saveGame (e : Engine) (now : ℕ) : SaveData :=
  { themeName := e.theme.name
    themeVersion := e.theme.version
    state := e.state
    eventHistory := some e.eventHistory
    timestamp := now }

/-- `loadGame(saveData)`: a snapshot recorded under a different theme name
throws (the engine's state and history are untouched — the functional
reading of the thrown error); a matching one replaces the state and the
event history wholesale. -/
def loadGame (e : Engine) (saveData : SaveData) : Except String Engine :=
  if saveData.themeName = e.theme.name then
    Except.ok { e with state := saveData.state
                       eventHistory := saveData.eventHistory.getD [] }
  else Except.error "Save file is for a different theme"

/-- Iterated `travel()` calls (the daily loop), threading the random
stream and discarding the per-day arrival results. -/
def travelN (theme : Theme) : ℕ → GameState → Rand → GameState × Rand
  | 0, s, rand => (s, rand)
  | n + 1, s, rand =>
    let t := travel theme s rand
    travelN theme n t.2.1 t.2.2

/-! ## A small concrete theme, used to evaluate the theorems on explicit
inputs -/

/-- A doubt whose configured abandon reason the abandonment pass can
return. -/
def demoDoubtGov : Doubt :=
  { name := "gov", trigger := "highParanoia", moraleDrain := 0
    abandonReason := some "sold the van and vanished" }

/-- A second doubt, for the low-belief class. -/
def demoDoubtLow : Doubt :=
  { name := "cold feet", trigger := "lowBelief", moraleDrain := 2
    abandonReason := none }

/-- An event guarded by the `hasGuitar` item condition. -/
def demoEvent : Event :=
  { id := some "e1", text := "a guitar event"
    condition := some (Condition.str "hasGuitar"), copEvent := false
    weight := some 1 }

/-- A concrete theme exercising every configured field. -/
def demoTheme : Theme :=
  { name := "demo"
    version := "1.0"
    resources :=
      { fuel := { name := "Gas", startValue := 50, max := some 100 }
        food := { name := "Food", startValue := 50, max := some 100 }
        morale := { name := "Belief", startValue := 100, max := some 100 }
        currency := { name := "Cash", startValue := 200, max := none }
        specialItem := { name := "Herbs", startValue := 20, max := some 100 } }
    journey :=
      { totalDistance := 1000
        phases := [{ name := "early", startMile := 0, endMile := 400 },
                   { name := "middle", startMile := 400, endMile := 800 },
                   { name := "late", startMile := 800, endMile := 2000 }]
        endLocation := "End Town" }
    locations := [{ name := "Start", distance := 0, hasLandmark := false
                    landmarkData := none },
                  { name := "Midpoint", distance := 100, hasLandmark := false
                    landmarkData := none },
                  { name := "End Town", distance := 200, hasLandmark := false
                    landmarkData := none }]
    events := { early := some [demoEvent], middle := none, late := none
                doubts := [demoDoubtGov, demoDoubtLow] }
    professions := [{ id := "dropout", displayName := "Dropout"
                      modifiers := { vibeDrainByPhase := none, forageBonus := none
                                     forageMoraleChange := none
                                     antagonistTargetChance := none }
                      startingCurrency := 200 }]
    shop := { items := [{ id := "gas1", name := "Gas Can", cost := 20
                          itemType := "fuel", amount := 10 }] }
    mystery := none }

/-- A fresh active party member named `n`. -/
def demoMember (n : String) : PartyMember :=
  { name := n, doubting := false, doubt := none, abandoned := false
    abandonReason := none, reason := none }

/-- A state with 5 fuel at rush pace: the next day of travel overdraws the
tank. -/
def lowFuelState : GameState :=
  let s := initializeGameState demoTheme
  { s with pace := "rush", resources := { s.resources with fuel := 5 } }

/-- A state whose one doubting member faces a dominant, non-trivial
paranoia abandonment chance (morale 60 gives chance 3/100, paranoia 90
gives chance 7/15). -/
def paranoidState : GameState :=
  let s := initializeGameState demoTheme
  { s with resources := { s.resources with morale := 60, specialItem := 90 }
           party := [{ demoMember "Ray" with doubting := true, doubt := some "gov" }] }

/-- A state 100 miles in, used to feed a negative distance effect. -/
def midwayState : GameState :=
  { initializeGameState demoTheme with distance := 100 }

/-- A state with zero morale and a two-member active party, on which the
morale-abandonment fail branch fires. -/
def zeroMoraleState : GameState :=
  let s := initializeGameState demoTheme
  { s with resources := { s.resources with morale := 0, food := 0, fuel := 10 }
           party := [demoMember "A", demoMember "B"] }

/-- A state one location short of the configured end location, close
enough to arrive. -/
def nearEndState : GameState :=
  { initializeGameState demoTheme with currentLocationIndex := 1, distance := 250 }

/-- A state owning a guitar, so the `hasGuitar` event condition holds. -/
def guitarState : GameState :=
  { initializeGameState demoTheme with items := [("guitar", 1)] }

/-! ## Helper lemmas -/

/-- Rewrite `String` boolean equality into a decidable test (the engine's
string-keyed lookups all reduce through this). -/
lemma string_beq_decide (a b : String) : (a == b) = decide (a = b) := rfl

/-- Characterisation of `updateActiveAt`: picking the `k`-th active member
of the roster updates exactly one position `i` (the position of that
member), applying `f` to a member that was not abandoned. -/
lemma updateActiveAt_spec (f : PartyMember → PartyMember) :
    ∀ (l : List PartyMember) (k : ℕ),
      k < (l.filter (fun m => !m.abandoned)).length →
      ∃ i m, l[i]? = some m ∧ m.abandoned = false ∧
        (l.filter (fun m => !m.abandoned))[k]? = some m ∧
        updateActiveAt f l k = (l.set i (f m), some (f m)) := by
  intro l
  induction l with
  | nil => intro k hk; simp at hk
  | cons m ms ih =>
    intro k hk
    by_cases hab : m.abandoned
    · have hk' : k < (ms.filter (fun m => !m.abandoned)).length := by
        simpa [List.filter_cons, hab] using hk
      obtain ⟨i, m', h1, h2, h3, h4⟩ := ih k hk'
      refine ⟨i + 1, m', by simpa using h1, h2, ?_, ?_⟩
      · simpa [List.filter_cons, hab] using h3
      · simp [updateActiveAt, hab, h4]
    · cases k with
      | zero =>
        refine ⟨0, m, by simp, by simpa using hab, ?_, ?_⟩
        · simp [List.filter_cons, hab]
        · simp [updateActiveAt, hab]
      | succ k =>
        have hk' : k < (ms.filter (fun m => !m.abandoned)).length := by
          simpa [List.filter_cons, hab] using hk
        obtain ⟨i, m', h1, h2, h3, h4⟩ := ih k hk'
        refine ⟨i + 1, m', by simpa using h1, h2, ?_, ?_⟩
        · simpa [List.filter_cons, hab] using h3
        · simp [updateActiveAt, hab, h4]

/-- A uniform draw in `[0, 1)` scaled by the length of a nonempty list and
floored is a valid index into the list. -/
lemma floor_mul_length_lt {r : ℚ} (n : ℕ) (hn : 0 < n) (_hr0 : 0 ≤ r)
    (hr1 : r < 1) : (Int.floor (r * (n : ℚ))).toNat < n := by
  have hlt : r * (n : ℚ) < (n : ℚ) := by
    have : (0 : ℚ) < (n : ℚ) := by exact_mod_cast hn
    nlinarith
  have hfl : Int.floor (r * (n : ℚ)) < (n : ℤ) := by
    rw [Int.floor_lt]
    exact_mod_cast hlt
  omega

/-- `updateWeather` only rewrites the weather field. -/
lemma updateWeather_shape (s : GameState) (rand : Rand) :
    ∃ w, (updateWeather s rand).1 = { s with weather := w } :=
  ⟨_, rfl⟩

/-- `updatePartyMorale` only rewrites the party and the morale. -/
lemma updatePartyMorale_shape (theme : Theme) (s : GameState) (rand : Rand) :
    ∃ p mor, (updatePartyMorale theme s rand).1 =
      { s with party := p, resources := { s.resources with morale := mor } } :=
  ⟨_, _, rfl⟩

/-- The arrival check never touches distance, the calendar, the travel
settings, the party, or any resource except morale. -/
lemma cla_frame (theme : Theme) (s : GameState) :
    (checkLocationArrival theme s).2.distance = s.distance ∧
    (checkLocationArrival theme s).2.month = s.month ∧
    (checkLocationArrival theme s).2.day = s.day ∧
    (checkLocationArrival theme s).2.pace = s.pace ∧
    (checkLocationArrival theme s).2.party = s.party ∧
    (checkLocationArrival theme s).2.resources.fuel = s.resources.fuel ∧
    (checkLocationArrival theme s).2.resources.food = s.resources.food ∧
    (checkLocationArrival theme s).2.resources.currency = s.resources.currency ∧
    (checkLocationArrival theme s).2.resources.specialItem = s.resources.specialItem := by
  rcases hloc : theme.locations[s.currentLocationIndex + 1]? with _ | loc
  · simp [checkLocationArrival, hloc]
  · by_cases hd : loc.distance ≤ s.distance
    · by_cases hend : loc.name = theme.journey.endLocation
      · rcases hld : loc.landmarkData with _ | ld
        · simp [checkLocationArrival, hloc, hd, hend, hld]
        · by_cases hb : loc.hasLandmark ∧ jsTruthyQ ld.moraleBoost
          · simp [checkLocationArrival, hloc, hd, hend, hld, hb]
          · simp [checkLocationArrival, hloc, hd, hend, hld, hb]
      · rcases hld : loc.landmarkData with _ | ld
        · simp [checkLocationArrival, hloc, hd, hend, hld]
        · by_cases hb : loc.hasLandmark ∧ jsTruthyQ ld.moraleBoost
          · simp [checkLocationArrival, hloc, hd, hend, hld, hb]
          · simp [checkLocationArrival, hloc, hd, hend, hld, hb]
    · simp [checkLocationArrival, hloc, hd]

/-- The arrival check moves the location index forward by at most one, and
an advanced index is still a valid index of the location list. -/
lemma cla_index (theme : Theme) (s : GameState) :
    s.currentLocationIndex ≤ (checkLocationArrival theme s).2.currentLocationIndex ∧
    (checkLocationArrival theme s).2.currentLocationIndex ≤ s.currentLocationIndex + 1 ∧
    ((checkLocationArrival theme s).2.currentLocationIndex = s.currentLocationIndex ∨
      (checkLocationArrival theme s).2.currentLocationIndex < theme.locations.length) := by
  rcases hloc : theme.locations[s.currentLocationIndex + 1]? with _ | loc
  · simp [checkLocationArrival, hloc]
  · by_cases hd : loc.distance ≤ s.distance
    · have hlen : s.currentLocationIndex + 1 < theme.locations.length :=
        (List.getElem?_eq_some_iff.mp hloc).1
      by_cases hend : loc.name = theme.journey.endLocation
      · rcases hld : loc.landmarkData with _ | ld
        · simp [checkLocationArrival, hloc, hd, hend, hld, hlen]
        · by_cases hb : loc.hasLandmark ∧ jsTruthyQ ld.moraleBoost
          · simp [checkLocationArrival, hloc, hd, hend, hld, hb, hlen]
          · simp [checkLocationArrival, hloc, hd, hend, hld, hb, hlen]
      · rcases hld : loc.landmarkData with _ | ld
        · simp [checkLocationArrival, hloc, hd, hend, hld, hlen]
        · by_cases hb : loc.hasLandmark ∧ jsTruthyQ ld.moraleBoost
          · simp [checkLocationArrival, hloc, hd, hend, hld, hb, hlen]
          · simp [checkLocationArrival, hloc, hd, hend, hld, hb, hlen]
    · simp [checkLocationArrival, hloc, hd]

set_option maxRecDepth 4000 in
/-- One day of travel: pace is untouched, distance grows by the day's
miles, the calendar advances by one day, fuel depletes by the computed
rate, and food depletes by the computed rate unless the food resource is
the accumulating `Evidence`. -/
lemma travel_proj (theme : Theme) (s : GameState) (rand : Rand) :
    (travel theme s rand).2.1.pace = s.pace ∧
    (travel theme s rand).2.1.distance = s.distance + getMilesPerDay s ∧
    (travel theme s rand).2.1.month = (advanceTime 1 s.month s.day).1 ∧
    (travel theme s rand).2.1.day = (advanceTime 1 s.month s.day).2 ∧
    (travel theme s rand).2.1.resources.food =
      (if theme.resources.food.name = "Evidence" then s.resources.food
       else s.resources.food - (getConsumptionRates theme s).food) ∧
    (travel theme s rand).2.1.resources.fuel =
      s.resources.fuel - (getConsumptionRates theme s).fuel := by
  simp only [travel, cla_frame, updatePartyMorale, updateWeather]
  simp [apply_ite GameState.pace, apply_ite GameState.distance,
    apply_ite GameState.month, apply_ite GameState.day,
    apply_ite GameState.resources, apply_ite Resources.food,
    apply_ite Resources.fuel]

/-- A string-keyed lookup over positive values with a positive default is
positive. -/
lemma jsOrQ_findValQ_pos (l : List (String × ℚ)) (k : String) (d : ℚ)
    (hd : 0 < d) (hl : ∀ p ∈ l, 0 < p.2) : 0 < jsOrQ (findValQ l k) d := by
  rcases h : l.find? (fun p => p.1 == k) with _ | p
  · simp [jsOrQ, findValQ, h, hd]
  · have hp := hl p (List.mem_of_find?_eq_some h)
    by_cases hz : p.2 = 0
    · simp [jsOrQ, findValQ, h, hz, hd]
    · simp [jsOrQ, findValQ, h, hz, hp]

/-- The daily food consumption rate is positive (at least the bare ration
of 4). -/
lemma consumption_food_pos (theme : Theme) (s : GameState) :
    0 < (getConsumptionRates theme s).food := by
  unfold getConsumptionRates
  have h1 : 0 < jsOrQ (findValQ [("bare", 4), ("normal", 8), ("feast", 15)] s.rations) 8 := by
    refine jsOrQ_findValQ_pos _ _ _ (by norm_num) ?_
    intro p hp
    simp only [List.mem_cons, List.mem_singleton] at hp
    rcases hp with h | h | h | h <;> first | (subst h; norm_num) | simp at h
  have h2 : (0 : ℚ) ≤ (if s.weather == "hot" then 3 else 0) := by
    split <;> norm_num
  simp only []
  linarith

/-- The daily mileage is positive (30, 50, or 70; default 50). -/
lemma getMilesPerDay_pos (s : GameState) : 0 < getMilesPerDay s := by
  unfold getMilesPerDay
  refine jsOrQ_findValQ_pos _ _ _ (by norm_num) ?_
  intro p hp
  simp only [List.mem_cons, List.mem_singleton] at hp
  rcases hp with h | h | h | h <;> first | (subst h; norm_num) | simp at h

/-- Mileage only depends on the pace setting. -/
lemma getMilesPerDay_congr {s t : GameState} (h : s.pace = t.pace) :
    getMilesPerDay s = getMilesPerDay t := by
  unfold getMilesPerDay
  rw [h]

/-! ## Claim theorems -/

/-- A value respects a resource's configured (truthy) max. -/
def resSpecUpper (spec : ResourceSpec) (v : ℚ) : Bool :=
  match spec.max with
  | some mx => mx == 0 || decide (v ≤ mx)
  | none => true

/-- A value lies in `[0, max]` (or `[0, ∞)` when no truthy max is
configured). -/
def resSpecInBoundsB (spec : ResourceSpec) (v : ℚ) : Bool :=
  decide (0 ≤ v) && resSpecUpper spec v

/-- Every non-currency resource respects its configured max. -/
def resourcesUpper (tr : ThemeResources) (r : Resources) : Bool :=
  resSpecUpper tr.fuel r.fuel && resSpecUpper tr.food r.food &&
    resSpecUpper tr.morale r.morale && resSpecUpper tr.specialItem r.specialItem

/-- Every non-currency resource lies within its claimed bounds. -/
def resourcesInBounds (tr : ThemeResources) (r : Resources) : Bool :=
  resSpecInBoundsB tr.fuel r.fuel && resSpecInBoundsB tr.food r.food &&
    resSpecInBoundsB tr.morale r.morale && resSpecInBoundsB tr.specialItem r.specialItem

/-- The configured max, when present, is nonnegative. -/
def maxNonnegB (spec : ResourceSpec) : Bool :=
  match spec.max with
  | some mx => decide (0 ≤ mx)
  | none => true

/-- All non-currency maxes of a theme are nonnegative. -/
def themeMaxesNonneg (tr : ThemeResources) : Bool :=
  maxNonnegB tr.fuel && maxNonnegB tr.food && maxNonnegB tr.morale &&
    maxNonnegB tr.specialItem

/-- Capping at the configured max re-establishes the upper bound. -/
lemma cap_upper (spec : ResourceSpec) (v : ℚ) :
    resSpecUpper spec (capResource spec v) = true := by
  unfold resSpecUpper capResource
  rcases spec.max with _ | mx
  · rfl
  · by_cases hz : mx = 0
    · simp [hz]
    · simp [hz, min_le_left]

/-- In-bounds values respect the upper bound. -/
lemma upper_of_inBounds {spec : ResourceSpec} {v : ℚ}
    (h : resSpecInBoundsB spec v = true) : resSpecUpper spec v = true := by
  simp only [resSpecInBoundsB, Bool.and_eq_true] at h
  exact h.2

/-- Flooring at 0 a value that respects the (nonnegative) max lands in
bounds. -/
lemma clamp_inBounds (spec : ResourceSpec) (v : ℚ) (hmx : maxNonnegB spec = true)
    (hu : resSpecUpper spec v = true) :
    resSpecInBoundsB spec (max 0 v) = true := by
  rcases hmax : spec.max with _ | mx
  · simp [resSpecInBoundsB, resSpecUpper, hmax, le_max_left]
  · by_cases hz : mx = 0
    · simp [resSpecInBoundsB, resSpecUpper, hmax, hz, le_max_left]
    · have hvm : v ≤ mx := by
        simpa [resSpecUpper, hmax, hz] using hu
      have hmx0 : (0 : ℚ) ≤ mx := by
        simpa [maxNonnegB, hmax] using hmx
      simp [resSpecInBoundsB, resSpecUpper, hmax, hz, le_max_left, max_le hmx0 hvm]

/-- Applying one effect key preserves all upper bounds (touched keys are
capped, untouched keys keep their values). -/
lemma applyOneEffect_upper (theme : Theme) (s : GameState) (kv : String × ℚ)
    (h : resourcesUpper theme.resources s.resources = true) :
    resourcesUpper theme.resources (applyOneEffect theme s kv).resources = true := by
  have h2 := h
  simp only [resourcesUpper, Bool.and_eq_true] at h2
  obtain ⟨⟨⟨hf, hfo⟩, hm⟩, hs⟩ := h2
  unfold applyOneEffect
  dsimp only
  split_ifs
  · exact h
  · exact h
  · simp only [resourcesUpper, Bool.and_eq_true]
    exact ⟨⟨⟨cap_upper _ _, hfo⟩, hm⟩, hs⟩
  · simp only [resourcesUpper, Bool.and_eq_true]
    exact ⟨⟨⟨hf, cap_upper _ _⟩, hm⟩, hs⟩
  · simp only [resourcesUpper, Bool.and_eq_true]
    exact ⟨⟨⟨hf, hfo⟩, cap_upper _ _⟩, hs⟩
  · exact h
  · simp only [resourcesUpper, Bool.and_eq_true]
    exact ⟨⟨⟨hf, hfo⟩, hm⟩, cap_upper _ _⟩
  · exact h

/-- A whole effects map preserves all upper bounds. -/
lemma foldl_upper (theme : Theme) :
    ∀ (es : List (String × ℚ)) (s : GameState),
      resourcesUpper theme.resources s.resources = true →
      resourcesUpper theme.resources ((es.foldl (applyOneEffect theme) s)).resources = true := by
  intro es
  induction es with
  | nil => intro s hs; exact hs
  | cons kv tl ih =>
    intro s hs
    rw [List.foldl_cons]
    exact ih _ (applyOneEffect_upper theme s kv hs)

/-- One `applyEffects` call keeps every non-currency resource in bounds
(the final clamp restores nonnegativity, the per-key caps the maxes). -/
lemma applyEffects_inBounds (theme : Theme) (s : GameState)
    (effs : Option (List (String × ℚ)))
    (hmax : themeMaxesNonneg theme.resources = true)
    (h : resourcesInBounds theme.resources s.resources = true) :
    resourcesInBounds theme.resources (applyEffects theme s effs).resources = true := by
  cases effs with
  | none => exact h
  | some es =>
    simp only [applyEffects]
    have hu : resourcesUpper theme.resources s.resources = true := by
      simp only [resourcesInBounds, Bool.and_eq_true] at h
      simp only [resourcesUpper, Bool.and_eq_true]
      exact ⟨⟨⟨upper_of_inBounds h.1.1.1, upper_of_inBounds h.1.1.2⟩,
        upper_of_inBounds h.1.2⟩, upper_of_inBounds h.2⟩
    have hu2 := foldl_upper theme es s hu
    simp only [resourcesUpper, Bool.and_eq_true] at hu2
    simp only [themeMaxesNonneg, Bool.and_eq_true] at hmax
    simp only [clampNonCurrency, resourcesInBounds, Bool.and_eq_true]
    exact ⟨⟨⟨clamp_inBounds _ _ hmax.1.1.1 hu2.1.1.1,
      clamp_inBounds _ _ hmax.1.1.2 hu2.1.1.2⟩,
      clamp_inBounds _ _ hmax.1.2 hu2.1.2⟩,
      clamp_inBounds _ _ hmax.2 hu2.2⟩

/-- C1, amended: `applyEffects` is the clamping mutation: for a theme
whose configured maxes are nonnegative and whose start values are in
bounds, ANY sequence of `applyEffects` calls starting from the initial
state keeps every non-currency resource within `[0, max]` (within
`[0, ∞)` when no truthy max is configured).  The other mutations do not
re-clamp: the counterexample shows `travel()` driving fuel negative. -/
theorem applyEffects_seq_inBounds (theme : Theme)
    (effSeq : List (Option (List (String × ℚ))))
    (hmax : themeMaxesNonneg theme.resources = true)
    (hstart : resourcesInBounds theme.resources
      (initializeGameState theme).resources = true) :
    resourcesInBounds theme.resources
      (effSeq.foldl (fun st eff => applyEffects theme st eff)
        (initializeGameState theme)).resources = true := by
  suffices h : ∀ (l : List (Option (List (String × ℚ)))) (s : GameState),
      resourcesInBounds theme.resources s.resources = true →
      resourcesInBounds theme.resources
        (l.foldl (fun st eff => applyEffects theme st eff) s).resources = true from
    h effSeq _ hstart
  intro l
  induction l with
  | nil => intro s hs; exact hs
  | cons e tl ih =>
    intro s hs
    rw [List.foldl_cons]
    exact ih _ (applyEffects_inBounds theme s e hmax hs)

/-- C1, witness: a three-step effect sequence on the demo theme (a fuel
overfill, a null map, and a food overdraw with junk keys). -/
theorem applyEffects_seq_inBounds_witness :
    resourcesInBounds demoTheme.resources
      (([some [("fuel", 500)], none, some [("food", -200), ("bogus", 3), ("distance", -4)]] :
          List (Option (List (String × ℚ)))).foldl
        (fun st eff => applyEffects demoTheme st eff)
        (initializeGameState demoTheme)).resources = true :=
  applyEffects_seq_inBounds demoTheme
    [some [("fuel", 500)], none, some [("food", -200), ("bogus", 3), ("distance", -4)]]
    (by decide) (by decide)


/-- C1, counterexample: `travel()` does not clamp.  From 5 fuel at rush
pace (consumption 18), one day of travel leaves the fuel resource at -13,
outside the claimed `[0, max]` bounds. -/
theorem travel_leaves_fuel_negative :
    (travel demoTheme lowFuelState [0]).2.1.resources.fuel = -13 ∧
      (travel demoTheme lowFuelState [0]).2.1.resources.fuel < 0 := by
  norm_num +decide [travel, demoTheme, lowFuelState, initializeGameState,
    getMilesPerDay, getConsumptionRates, getCurrentPhase, getProfessionBaseDrain,
    advanceTime, loopFuel, advanceLoop, monthDays, updateWeather, nextRand,
    updatePartyMorale, targetDoubters, promoteLoop, demote, drainLoop, abandonLoop,
    checkLocationArrival, jsOrQ, findValQ, jsMinOpt, jsTruthyQ, moraleAbandonChance,
    paranoiaAbandonChanceFn, demoMember, List.find?, string_beq_decide]

/-- C2: the paranoia-specific abandon reason is dead code.  At morale 60
and paranoia 90 the paranoia chance 7/15 dominates the morale chance 3/100
and exceeds 1/10, so per the claim the member who abandons should be
recorded as having become too paranoid and fled; the source compares the
paranoia chance against the already-maxed effective chance, so the doubt
catalog's reason is recorded instead. -/
theorem paranoia_abandon_reason_never_used :
    moraleAbandonChance 60 < paranoiaAbandonChanceFn 90 ∧
      1 / 10 < paranoiaAbandonChanceFn 90 ∧
      (updatePartyMorale demoTheme paranoidState [0]).2.1 =
        [{ name := "Ray", reason := "sold the van and vanished" }] ∧
      (updatePartyMorale demoTheme paranoidState [0]).2.1 ≠
        [{ name := "Ray", reason := "became too paranoid and fled" }] := by
  norm_num +decide [updatePartyMorale, demoTheme, paranoidState, initializeGameState,
    targetDoubters, promoteLoop, demote, drainLoop, abandonLoop, nextRand,
    moraleAbandonChance, paranoiaAbandonChanceFn, jsOrQ, jsOrStr, findValQ,
    demoMember, demoDoubtGov, demoDoubtLow, List.find?, string_beq_decide]

/-- C5: when morale is at or below 0, at least one member is active, and
no earlier fail branch applies (fuel positive, food above -20, time limit
not exceeded — not all abandoned follows from the active member), the fail
check abandons exactly the uniformly picked `⌊r·n⌋`-th active member
(one position of the roster is set, everything else kept), resets morale
to exactly 20, and returns the non-terminal morale-abandonment result
(`alive` is untouched); no other branch fires on that call. -/
theorem checkFailConditions_morale_abandonment
    (theme : Theme) (s : GameState) (r : ℚ) (rs : List ℚ)
    (hactive : 0 < (s.party.filter (fun m => !m.abandoned)).length)
    (hfuel : 0 < s.resources.fuel)
    (hfood : -20 < s.resources.food)
    (htime : mysteryExpired theme s = false)
    (hmorale : s.resources.morale ≤ 0)
    (hr0 : 0 ≤ r) (hr1 : r < 1) :
    ∃ i m,
      s.party[i]? = some m ∧ m.abandoned = false ∧
      (s.party.filter (fun m => !m.abandoned))[(Int.floor (r * (((s.party.filter (fun m => !m.abandoned)).length : ℕ) : ℚ))).toNat]?
        = some m ∧
      checkFailConditions theme s (r :: rs) =
        (some (FailResult.moraleAbandonment { m with abandoned := true }),
         { s with party := s.party.set i { m with abandoned := true }
                  resources := { s.resources with morale := 20 } }, rs) := by
  have hk : (Int.floor (r * (((s.party.filter (fun m => !m.abandoned)).length : ℕ) : ℚ))).toNat
      < (s.party.filter (fun m => !m.abandoned)).length :=
    floor_mul_length_lt _ hactive hr0 hr1
  obtain ⟨i, m, h1, h2, h3, h4⟩ :=
    updateActiveAt_spec (fun m => { m with abandoned := true }) s.party _ hk
  refine ⟨i, m, h1, h2, h3, ?_⟩
  have hall : (s.party.all fun m => m.abandoned) = false := by
    obtain ⟨x, hx⟩ := List.exists_mem_of_length_pos hactive
    have hx' := List.mem_filter.mp hx
    rcases h : s.party.all fun m => m.abandoned with _ | _
    · rfl
    · have := List.all_eq_true.mp h x hx'.1
      simp [this] at hx'
  have hf1 : ¬ s.resources.fuel ≤ 0 := not_le.mpr hfuel
  have hf2 : ¬ s.resources.food ≤ -20 := not_le.mpr hfood
  simp only [checkFailConditions, nextRand, hall, htime, hf1, hf2, hmorale, hactive,
    Bool.false_eq_true, if_false, if_true, ite_false, ite_true]
  rw [h4]

/-- C5, witness: on the demo theme with morale 0, food 0, fuel 10 and the
active party `[A, B]`, draw 0 picks member `A`. -/
theorem checkFailConditions_morale_abandonment_witness :
    ∃ i m,
      zeroMoraleState.party[i]? = some m ∧ m.abandoned = false ∧
      (zeroMoraleState.party.filter (fun m => !m.abandoned))[(Int.floor ((0 : ℚ) *
          (((zeroMoraleState.party.filter (fun m => !m.abandoned)).length : ℕ) : ℚ))).toNat]?
        = some m ∧
      checkFailConditions demoTheme zeroMoraleState ((0 : ℚ) :: ([] : List ℚ)) =
        (some (FailResult.moraleAbandonment { m with abandoned := true }),
         { zeroMoraleState with
             party := zeroMoraleState.party.set i { m with abandoned := true }
             resources := { zeroMoraleState.resources with morale := 20 } },
         ([] : List ℚ)) :=
  checkFailConditions_morale_abandonment demoTheme zeroMoraleState 0 []
    (by decide) (by decide) (by decide) (by decide) (by decide) (by decide) (by decide)

/-- C3, counterexample: `applyEffects` accepts a negative `distance`
delta, so distance is not monotone across every engine operation: from
mile 100 an effect map with `distance: -10` moves the state back to mile
90. -/
theorem applyEffects_decreases_distance :
    (applyEffects demoTheme midwayState (some [("distance", -10)])).distance <
      midwayState.distance := by
  norm_num +decide [applyEffects, applyOneEffect, clampNonCurrency, capResource,
    demoTheme, midwayState, initializeGameState, List.foldl]

/-- C6: one arrival check advances the location index by at most one, and
the advanced-to location is the configured end location exactly when the
result is the terminal win signal (which also clears `alive`); a plain
arrival result is never returned for the end location. -/
theorem checkLocationArrival_advance_win
    (theme : Theme) (s : GameState) :
    s.currentLocationIndex ≤ (checkLocationArrival theme s).2.currentLocationIndex ∧
    (checkLocationArrival theme s).2.currentLocationIndex ≤ s.currentLocationIndex + 1 ∧
    (match (checkLocationArrival theme s).1 with
     | some (ArrivalResult.win loc) =>
         (loc.name == theme.journey.endLocation) = true ∧
         (checkLocationArrival theme s).2.alive = false ∧
         (checkLocationArrival theme s).2.currentLocationIndex = s.currentLocationIndex + 1
     | some (ArrivalResult.arrival loc) =>
         (loc.name == theme.journey.endLocation) = false ∧
         (checkLocationArrival theme s).2.currentLocationIndex = s.currentLocationIndex + 1
     | none => (checkLocationArrival theme s).2 = s) := by
  rcases hloc : theme.locations[s.currentLocationIndex + 1]? with _ | loc
  · simp [checkLocationArrival, hloc]
  · by_cases hd : loc.distance ≤ s.distance
    · by_cases hend : loc.name = theme.journey.endLocation
      · rcases hld : loc.landmarkData with _ | ld
        · simp [checkLocationArrival, hloc, hd, hend, hld]
        · by_cases hb : loc.hasLandmark ∧ jsTruthyQ ld.moraleBoost
          · simp [checkLocationArrival, hloc, hd, hend, hld, hb]
          · simp [checkLocationArrival, hloc, hd, hend, hld, hb]
      · rcases hld : loc.landmarkData with _ | ld
        · simp [checkLocationArrival, hloc, hd, hend, hld]
        · by_cases hb : loc.hasLandmark ∧ jsTruthyQ ld.moraleBoost
          · simp [checkLocationArrival, hloc, hd, hend, hld, hb]
          · simp [checkLocationArrival, hloc, hd, hend, hld, hb]
    · simp [checkLocationArrival, hloc, hd]

/-- Cumulative days before each month of the simplified calendar. -/
def daysBeforeMonth : ℕ → ℚ
  | 0 => 0
  | 1 => 31
  | 2 => 61
  | 3 => 92
  | 4 => 122
  | 5 => 153
  | 6 => 184
  | _ => 214

/-- Absolute position of a calendar state inside the 214-day year. -/
def absDayQ (month : ℕ) (day : ℚ) : ℚ := daysBeforeMonth month + day

/-- A well-formed calendar state: month in range, integral day inside the
month. -/
def CalendarWF (month : ℕ) (day : ℚ) : Prop :=
  month < 7 ∧ (∃ d : ℤ, day = (d : ℚ)) ∧ 1 ≤ day ∧ day ≤ monthDays.getD month 0

/-- The roll loop stops (for any fuel) as soon as the day fits the month. -/
lemma advanceLoop_stop (f month : ℕ) (day md : ℚ)
    (h : monthDays[month]? = some md) (hle : ¬ md < day) :
    advanceLoop f month day = (month, day) := by
  cases f with
  | zero => rfl
  | succ f => simp [advanceLoop, h, hle]

/-- One iteration of the roll loop: subtract the month length and advance
the (wrapped) month index. -/
lemma advanceLoop_step (f m : ℕ) (day md : ℚ)
    (h : monthDays[m]? = some md) (hlt : md < day) :
    advanceLoop (f + 1) m day =
      advanceLoop f (if 7 ≤ m + 1 then 0 else m + 1) (day - md) := by
  simp [advanceLoop, h, hlt]

/-- The fuel is positive whenever the day counter is at least 1. -/
lemma loopFuel_pos (day : ℚ) (h : 1 ≤ day) : ∃ f, loopFuel day = f + 1 := by
  have h0 : 0 < Int.ceil day := Int.ceil_pos.mpr (by linarith)
  have hne : loopFuel day ≠ 0 := by
    unfold loopFuel
    omega
  exact Nat.exists_eq_succ_of_ne_zero hne

/-- In-range month lookups succeed. -/
lemma monthDays_lookup (m : ℕ) (h7 : m < 7) :
    monthDays[m]? = some (monthDays.getD m 0) := by
  interval_cases m <;> rfl

/-- Every month is at least one day long. -/
lemma monthDays_getD_ge1 (m : ℕ) (h7 : m < 7) : (1 : ℚ) ≤ monthDays.getD m 0 := by
  interval_cases m <;> norm_num [monthDays]

/-- The wrapped successor month index stays in range. -/
lemma wrap_lt (m : ℕ) (h7 : m < 7) : (if 7 ≤ m + 1 then 0 else m + 1) < 7 := by
  split <;> omega

/-- An integer day below the month bound but with no room for one more
day equals the bound. -/
lemma int_day_eq (d e : ℤ) (h2 : (d : ℚ) ≤ (e : ℚ)) (hlt : ¬ (d : ℚ) + 1 ≤ (e : ℚ)) :
    (d : ℚ) = (e : ℚ) := by
  have a : d ≤ e := by exact_mod_cast h2
  have b : (e : ℚ) < (d : ℚ) + 1 := not_le.mp hlt
  have c : e < d + 1 := by exact_mod_cast b
  have : d = e := by omega
  exact_mod_cast this

/-- The only well-formed day that rolls over is the month's last day. -/
lemma day_eq_md (m : ℕ) (h7 : m < 7) (day : ℚ) (d : ℤ) (hd : day = (d : ℚ))
    (h2 : day ≤ monthDays.getD m 0) (hlt : ¬ day + 1 ≤ monthDays.getD m 0) :
    day = monthDays.getD m 0 := by
  subst hd
  interval_cases m <;>
  · simp only [monthDays, List.getD_cons_zero, List.getD_cons_succ] at h2 hlt ⊢
    exact_mod_cast int_day_eq d _ (by exact_mod_cast h2) (by exact_mod_cast hlt)

/-- Stepping to the next (possibly wrapped) month adds the month length
to the cumulative day count, modulo the 214-day year. -/
lemma prefix_step (m : ℕ) (h7 : m < 7) :
    daysBeforeMonth (if 7 ≤ m + 1 then 0 else m + 1) +
      (if 7 ≤ m + 1 then (214 : ℚ) else 0) =
    daysBeforeMonth m + monthDays.getD m 0 := by
  interval_cases m <;> norm_num [daysBeforeMonth, monthDays]


/-- `advanceTime(1)` preserves calendar well-formedness and advances the
absolute day by exactly one, modulo the 214-day year. -/
lemma advanceTime_one (month : ℕ) (day : ℚ) (h : CalendarWF month day) :
    CalendarWF (advanceTime 1 month day).1 (advanceTime 1 month day).2 ∧
    ∃ k : ℤ, absDayQ (advanceTime 1 month day).1 (advanceTime 1 month day).2 +
      214 * (k : ℚ) = absDayQ month day + 1 := by
  obtain ⟨h7, ⟨d, hd⟩, h1, h2⟩ := h
  by_cases hle : day + 1 ≤ monthDays.getD month 0
  · have hstay : advanceTime 1 month day = (month, day + 1) := by
      unfold advanceTime
      exact advanceLoop_stop _ _ _ (monthDays.getD month 0)
        (monthDays_lookup month h7) (not_lt.mpr hle)
    rw [hstay]
    refine ⟨⟨h7, ⟨d + 1, by rw [hd]; push_cast; ring⟩, by show (1:ℚ) ≤ day + 1; linarith, hle⟩, 0, ?_⟩
    simp [absDayQ]
    ring
  · have hdm : day = monthDays.getD month 0 := day_eq_md month h7 day d hd h2 hle
    have hroll : advanceTime 1 month day =
        (if 7 ≤ month + 1 then 0 else month + 1, 1) := by
      show advanceLoop (loopFuel (day + 1)) month (day + 1) = _
      obtain ⟨f, hf⟩ := loopFuel_pos (day + 1) (by linarith)
      rw [hf, advanceLoop_step f month (day + 1) (monthDays.getD month 0)
        (monthDays_lookup month h7) (by rw [hdm]; linarith)]
      have hone : day + 1 - monthDays.getD month 0 = 1 := by rw [hdm]; ring
      rw [hone]
      exact advanceLoop_stop f _ 1 (monthDays.getD (if 7 ≤ month + 1 then 0 else month + 1) 0)
        (monthDays_lookup _ (wrap_lt month h7))
        (not_lt.mpr (monthDays_getD_ge1 _ (wrap_lt month h7)))
    rw [hroll]
    refine ⟨⟨wrap_lt month h7, ⟨1, by norm_num⟩, le_refl 1,
      monthDays_getD_ge1 _ (wrap_lt month h7)⟩,
      (if 7 ≤ month + 1 then 1 else 0), ?_⟩
    have hp := prefix_step month h7
    simp only [absDayQ]
    rw [hdm]
    by_cases hw : 7 ≤ month + 1 <;> simp only [hw, if_true, if_false, ite_true, ite_false] at hp ⊢ <;>
      push_cast <;> linarith


/-- C8: `N` consecutive `travel()` calls leave the pace unchanged, grow
the distance by exactly `N` times the per-day mileage of that pace, and
advance the calendar by exactly `N` days (the absolute day modulo the
214-day rollover year), for every random stream — independent of weather
draws and party outcomes. -/
theorem travelN_distance_calendar
    (theme : Theme) (N : ℕ) (s : GameState) (rand : Rand)
    (hwf : CalendarWF s.month s.day) :
    (travelN theme N s rand).1.pace = s.pace ∧
    (travelN theme N s rand).1.distance = s.distance + N * getMilesPerDay s ∧
    CalendarWF (travelN theme N s rand).1.month (travelN theme N s rand).1.day ∧
    ∃ k : ℤ, absDayQ (travelN theme N s rand).1.month (travelN theme N s rand).1.day +
      214 * (k : ℚ) = absDayQ s.month s.day + N := by
  induction N generalizing s rand with
  | zero =>
    refine ⟨rfl, ?_, hwf, 0, ?_⟩ <;> simp [travelN]
  | succ n ih =>
    obtain ⟨hp, hdst, hm, hdy, _, _⟩ := travel_proj theme s rand
    have hcal := advanceTime_one s.month s.day hwf
    have hwf1 : CalendarWF (travel theme s rand).2.1.month (travel theme s rand).2.1.day := by
      rw [hm, hdy]; exact hcal.1
    obtain ⟨hp', hdst', hwf', k', hk'⟩ :=
      ih (travel theme s rand).2.1 (travel theme s rand).2.2 hwf1
    have hmiles : getMilesPerDay (travel theme s rand).2.1 = getMilesPerDay s :=
      getMilesPerDay_congr hp
    obtain ⟨k1, hk1⟩ := hcal.2
    have e1 : absDayQ (travel theme s rand).2.1.month (travel theme s rand).2.1.day +
        214 * (k1 : ℚ) = absDayQ s.month s.day + 1 := by
      rw [hm, hdy]; exact hk1
    have hstep : travelN theme (n + 1) s rand =
        travelN theme n (travel theme s rand).2.1 (travel theme s rand).2.2 := rfl
    rw [hstep]
    refine ⟨hp'.trans hp, ?_, hwf', k' + k1, ?_⟩
    · rw [hdst', hdst, hmiles]
      push_cast
      ring
    · push_cast
      linarith


/-- C8, witness: two travel days on the demo theme from the initial state
(August 1, steady pace). -/
theorem travelN_distance_calendar_witness :
    (travelN demoTheme 2 (initializeGameState demoTheme) [0, 0]).1.pace =
      (initializeGameState demoTheme).pace ∧
    (travelN demoTheme 2 (initializeGameState demoTheme) [0, 0]).1.distance =
      (initializeGameState demoTheme).distance +
        (2 : ℕ) * getMilesPerDay (initializeGameState demoTheme) ∧
    CalendarWF (travelN demoTheme 2 (initializeGameState demoTheme) [0, 0]).1.month
      (travelN demoTheme 2 (initializeGameState demoTheme) [0, 0]).1.day ∧
    ∃ k : ℤ, absDayQ (travelN demoTheme 2 (initializeGameState demoTheme) [0, 0]).1.month
        (travelN demoTheme 2 (initializeGameState demoTheme) [0, 0]).1.day +
      214 * (k : ℚ) =
        absDayQ (initializeGameState demoTheme).month
          (initializeGameState demoTheme).day + (2 : ℕ) :=
  travelN_distance_calendar demoTheme 2 (initializeGameState demoTheme) [0, 0]
    ⟨by norm_num [initializeGameState],
     ⟨1, by norm_num [initializeGameState]⟩,
     by norm_num [initializeGameState],
     by norm_num [initializeGameState, monthDays]⟩

/-- C10: daily travel consumes food exactly when the theme's food resource
is not displayed as `Evidence`: with `Evidence` the food value is left
unchanged by `travel()`, otherwise it decreases by the (positive) computed
daily consumption rate. -/
theorem travel_food_evidence_frame (theme : Theme) (s : GameState) (rand : Rand) :
    (travel theme s rand).2.1.resources.food =
      (if theme.resources.food.name = "Evidence" then s.resources.food
       else s.resources.food - (getConsumptionRates theme s).food) ∧
    0 < (getConsumptionRates theme s).food :=
  ⟨(travel_proj theme s rand).2.2.2.2.1, consumption_food_pos theme s⟩

/-- The weighted draw loop only ever returns an element of its pool. -/
lemma pickWeighted_mem :
    ∀ (r : ℚ) (l : List Event) (e : Event), pickWeighted r l = some e → e ∈ l := by
  intro r l
  induction l generalizing r with
  | nil => intro e h; simp [pickWeighted] at h
  | cons a as ih =>
    intro e h
    simp only [pickWeighted] at h
    split at h
    · cases h; exact List.mem_cons_self a as
    · exact List.mem_cons_of_mem _ (ih _ e h)

/-- The head of a list is a member. -/
lemma head?_mem {α : Type} {l : List α} {a : α} (h : l.head? = some a) : a ∈ l := by
  cases l with
  | nil => simp at h
  | cons b bs =>
    simp only [List.head?, Option.some.injEq] at h
    subst h
    exact List.mem_cons_self b bs

/-- Whatever event the selection half returns is a member of the pool it
was given (both the weighted winner and the index-0 fallback). -/
lemma selectEvent_mem (A : List Event) (s : GameState) (hist : List HistoryEntry)
    (rand : Rand) (e : Event) (s2 : GameState) (hist2 : List HistoryEntry)
    (rand2 : Rand) (h : selectEvent A s hist rand = (some e, s2, hist2, rand2)) :
    e ∈ A := by
  unfold selectEvent at h
  split at h
  · cases h
  · dsimp only at h
    split at h
    case h_1 e0 heq =>
      have he : e0 = e := by
        have := congrArg Prod.fst h
        simpa using this
      subst he
      exact pickWeighted_mem _ _ _ heq
    case h_2 heq =>
      have hh := congrArg Prod.fst h
      simp only at hh
      exact head?_mem hh

/-- Every member of the condition-filtered pool (with or without the
weight-boost map, which does not touch conditions) has a true condition. -/
lemma mem_condition_filter_map {s : GameState} {pool : List Event} {g : Event → Event}
    (hg : ∀ e, (g e).condition = e.condition)
    {x : Event} {P : Prop} [Decidable P]
    (hx : x ∈ (if P then (pool.filter (fun e =>
          match e.condition with
          | none => true
          | some c => checkEventCondition s c)).map g
      else pool.filter (fun e =>
          match e.condition with
          | none => true
          | some c => checkEventCondition s c)))
    {c : Condition} (hc : x.condition = some c) :
    checkEventCondition s c = true := by
  split at hx
  · obtain ⟨y, hy, rfl⟩ := List.mem_map.mp hx
    have hp := List.of_mem_filter hy
    rw [hg] at hc
    rw [hc] at hp
    exact hp
  · have hp := List.of_mem_filter hx
    rw [hc] at hp
    exact hp

/-- C7: the event selector never returns an event whose condition
predicate evaluates to false in the state at selection time: every
returned event carrying a condition (state predicate or `has<Item>`
string) had it evaluate true through `checkEventCondition`. -/
theorem getRandomEvent_condition_true
    (theme : Theme) (s : GameState) (hist : List HistoryEntry) (rand : Rand)
    (e : Event) (s2 : GameState) (hist2 : List HistoryEntry) (rand2 : Rand)
    (h : getRandomEvent theme s hist rand = (some e, s2, hist2, rand2))
    (c : Condition) (hc : e.condition = some c) :
    checkEventCondition s c = true := by
  simp only [getRandomEvent] at h
  have hmem := selectEvent_mem _ _ _ _ _ _ _ _ h
  exact mem_condition_filter_map (fun x => by split <;> rfl) hmem hc


/-- C7, witness: the `hasGuitar`-guarded demo event drawn while owning a
guitar. -/
theorem getRandomEvent_condition_true_witness :
    checkEventCondition guitarState (Condition.str "hasGuitar") = true :=
  getRandomEvent_condition_true demoTheme guitarState [] [0] demoEvent
    { guitarState with usedEvents := ["e1"] }
    [{ event := demoEvent, month := 5, day := 1 }] []
    (by norm_num +decide [getRandomEvent, selectEvent, pickWeighted, eventKey,
      checkEventCondition, eventsGet, getCurrentPhase, jsOrQ, jsOrStr, jsTruthyQ,
      itemsGet, findValQ, demoTheme, demoEvent, guitarState, initializeGameState,
      nextRand, List.find?, string_beq_decide])
    (Condition.str "hasGuitar") rfl


/-- Roster evolution that never un-abandons a member: every abandoned
position keeps an abandoned member, whose doubting flag is never switched
(back) on. -/
def keepsAbandoned (old new : List PartyMember) : Prop :=
  ∀ (i : ℕ) (m : PartyMember), old[i]? = some m → m.abandoned = true →
    ∃ m2, new[i]? = some m2 ∧ m2.abandoned = true ∧ (m2.doubting = true → m.doubting = true)

/-- Positions kept exactly as they were satisfy `keepsAbandoned`. -/
lemma keepsAbandoned_of_get {old new : List PartyMember}
    (h : ∀ (i : ℕ) (m : PartyMember), old[i]? = some m → m.abandoned = true →
      new[i]? = some m) :
    keepsAbandoned old new :=
  fun i m hm hab => ⟨m, h i m hm hab, hab, fun hd => hd⟩

/-- An untouched roster satisfies `keepsAbandoned`. -/
lemma keepsAbandoned_refl (l : List PartyMember) : keepsAbandoned l l :=
  keepsAbandoned_of_get (fun _ _ hm _ => hm)

/-- The promotion loop passes abandoned members through unchanged. -/
lemma promoteLoop_abandoned (theme : Theme) (s : GameState) :
    ∀ (l : List PartyMember) (k : ℕ) (rand : Rand) (i : ℕ) (m : PartyMember),
      l[i]? = some m → m.abandoned = true →
      (promoteLoop theme s l k rand).1[i]? = some m := by
  intro l
  induction l with
  | nil => intro k rand i m h _; simp at h
  | cons a as ih =>
    intro k rand i m h hab
    cases k with
    | zero => simpa [promoteLoop] using h
    | succ k =>
      cases i with
      | zero =>
        simp only [List.getElem?_cons_zero, Option.some.injEq] at h
        subst h
        simp [promoteLoop, hab]
      | succ i =>
        simp only [List.getElem?_cons_succ] at h
        simp only [promoteLoop]
        split
        · simp only [List.getElem?_cons_succ]
          exact ih k _ i m h hab
        · simp only [List.getElem?_cons_succ]
          exact ih (k + 1) rand i m h hab

/-- The demotion pass passes abandoned members through unchanged. -/
lemma demote_abandoned (l : List PartyMember) (i : ℕ) (m : PartyMember)
    (h : l[i]? = some m) (hab : m.abandoned = true) :
    (demote l)[i]? = some m := by
  simp only [demote, List.getElem?_map, h, Option.map_some]
  simp [hab]

/-- The abandonment pass passes already-abandoned members through
unchanged. -/
lemma abandonLoop_abandoned (doubts : List Doubt) (vibes paranoia : ℚ) :
    ∀ (l : List PartyMember) (rand : Rand) (i : ℕ) (m : PartyMember),
      l[i]? = some m → m.abandoned = true →
      (abandonLoop doubts vibes paranoia l rand).1[i]? = some m := by
  intro l
  induction l with
  | nil => intro rand i m h _; simp at h
  | cons a as ih =>
    intro rand i m h hab
    cases i with
    | zero =>
      simp only [List.getElem?_cons_zero, Option.some.injEq] at h
      subst h
      simp [abandonLoop, hab]
    | succ i =>
      simp only [List.getElem?_cons_succ] at h
      simp only [abandonLoop]
      split
      · simp only [List.getElem?_cons_succ]
        exact ih rand i m h hab
      · split <;>
        · simp only [List.getElem?_cons_succ]
          exact ih (nextRand rand).2 i m h hab

/-- Picking an active member leaves every abandoned member unchanged. -/
lemma updateActiveAt_abandoned (f : PartyMember → PartyMember) :
    ∀ (l : List PartyMember) (k : ℕ) (i : ℕ) (m : PartyMember),
      l[i]? = some m → m.abandoned = true →
      (updateActiveAt f l k).1[i]? = some m := by
  intro l
  induction l with
  | nil => intro k i m h _; simp at h
  | cons a as ih =>
    intro k i m h hab
    cases i with
    | zero =>
      simp only [List.getElem?_cons_zero, Option.some.injEq] at h
      subst h
      simp [updateActiveAt, hab]
    | succ i =>
      simp only [List.getElem?_cons_succ] at h
      simp only [updateActiveAt]
      split
      · simp only [List.getElem?_cons_succ]
        exact ih k i m h hab
      · cases k with
        | zero =>
          simp only [List.getElem?_cons_succ]
          exact h
        | succ k =>
          simp only [List.getElem?_cons_succ]
          exact ih k i m h hab


/-- The daily party morale update leaves abandoned members untouched. -/
lemma updatePartyMorale_abandoned (theme : Theme) (s : GameState) (rand : Rand)
    (i : ℕ) (m : PartyMember) (h : s.party[i]? = some m) (hab : m.abandoned = true) :
    (updatePartyMorale theme s rand).1.party[i]? = some m := by
  simp only [updatePartyMorale]
  refine abandonLoop_abandoned _ _ _ _ _ i m ?_ hab
  split
  · refine demote_abandoned _ i m ?_ hab
    split
    · exact promoteLoop_abandoned theme s s.party _ rand i m h hab
    · exact h
  · split
    · exact promoteLoop_abandoned theme s s.party _ rand i m h hab
    · exact h

/-- One day of travel leaves abandoned members untouched. -/
lemma travel_abandoned (theme : Theme) (s : GameState) (rand : Rand)
    (i : ℕ) (m : PartyMember) (h : s.party[i]? = some m) (hab : m.abandoned = true) :
    (travel theme s rand).2.1.party[i]? = some m := by
  simp only [travel, cla_frame]
  exact updatePartyMorale_abandoned theme _ _ i m
    (by simpa [updateWeather, apply_ite GameState.party] using h) hab

/-- The paranoia fail branch leaves abandoned members untouched. -/
lemma checkParanoiaBranch_abandoned (theme : Theme) (s : GameState) (rand : Rand)
    (i : ℕ) (m : PartyMember) (h : s.party[i]? = some m) (hab : m.abandoned = true) :
    (checkParanoiaBranch theme s rand).2.1.party[i]? = some m := by
  unfold checkParanoiaBranch
  split
  · dsimp only
    split
    · split
      · exact updateActiveAt_abandoned _ s.party _ i m h hab
      · exact updateActiveAt_abandoned _ s.party _ i m h hab
    · exact h
  · exact h

/-- The fail check leaves abandoned members untouched in every branch. -/
lemma checkFailConditions_abandoned (theme : Theme) (s : GameState) (rand : Rand)
    (i : ℕ) (m : PartyMember) (h : s.party[i]? = some m) (hab : m.abandoned = true) :
    (checkFailConditions theme s rand).2.1.party[i]? = some m := by
  unfold checkFailConditions
  split
  · exact h
  · split
    · exact h
    · split
      · exact h
      · split
        · exact h
        · split
          · dsimp only
            split
            · split
              · exact updateActiveAt_abandoned _ s.party _ i m h hab
              · exact updateActiveAt_abandoned _ s.party _ i m h hab
            · exact checkParanoiaBranch_abandoned theme s rand i m h hab
          · exact checkParanoiaBranch_abandoned theme s rand i m h hab

/-- Rest keeps abandoned members abandoned (it clears, never sets,
doubting). -/
lemma rest_keeps (s : GameState) (days : ℚ) :
    keepsAbandoned s.party (rest s days).2.party := by
  unfold rest
  split
  · exact keepsAbandoned_refl s.party
  · dsimp only
    split
    · intro i m hm hab
      refine ⟨{ m with doubting := false, doubt := none }, ?_, hab, ?_⟩
      · simp [List.getElem?_map, hm]
      · intro hd
        simp at hd
    · exact keepsAbandoned_refl s.party

/-- Effect application never touches the party or the location index. -/
lemma foldl_applyOneEffect_frame (theme : Theme) :
    ∀ (es : List (String × ℚ)) (s : GameState),
      (es.foldl (applyOneEffect theme) s).party = s.party ∧
      (es.foldl (applyOneEffect theme) s).currentLocationIndex = s.currentLocationIndex := by
  intro es
  induction es with
  | nil => intro s; exact ⟨rfl, rfl⟩
  | cons kv tl ih =>
    intro s
    have h1 : (applyOneEffect theme s kv).party = s.party ∧
        (applyOneEffect theme s kv).currentLocationIndex = s.currentLocationIndex := by
      unfold applyOneEffect
      dsimp only
      split_ifs <;> exact ⟨rfl, rfl⟩
    obtain ⟨ha, hb⟩ := ih (applyOneEffect theme s kv)
    exact ⟨by rw [List.foldl_cons, ha, h1.1], by rw [List.foldl_cons, hb, h1.2]⟩

/-- `applyEffects` never touches the party or the location index. -/
lemma applyEffects_party_index (theme : Theme) (s : GameState)
    (effs : Option (List (String × ℚ))) :
    (applyEffects theme s effs).party = s.party ∧
    (applyEffects theme s effs).currentLocationIndex = s.currentLocationIndex := by
  cases effs with
  | none => exact ⟨rfl, rfl⟩
  | some es =>
    simp only [applyEffects]
    exact (foldl_applyOneEffect_frame theme es s)

/-- Forage only rewrites the resources and the forage counter. -/
lemma forage_shape (theme : Theme) (s : GameState) (rand : Rand) :
    ∃ r2 fc, (forage theme s rand).2.1 = { s with resources := r2, forageCount := fc } :=
  ⟨_, _, rfl⟩

/-- The shop only rewrites the resources and the item counters. -/
lemma buyItem_shape (theme : Theme) (s : GameState) (itemId : String) :
    ∃ r2 itms, (buyItem theme s itemId).2 = { s with resources := r2, items := itms } := by
  unfold buyItem
  split
  · exact ⟨s.resources, s.items, rfl⟩
  · split
    · exact ⟨s.resources, s.items, rfl⟩
    · split_ifs <;> exact ⟨_, _, rfl⟩

/-- Event selection only rewrites the used-event set of the state. -/
lemma selectEvent_shape (A : List Event) (s : GameState) (hist : List HistoryEntry)
    (rand : Rand) :
    ∃ u, (selectEvent A s hist rand).2.1 = { s with usedEvents := u } := by
  unfold selectEvent
  split
  · exact ⟨s.usedEvents, rfl⟩
  · dsimp only
    split
    · exact ⟨_, rfl⟩
    · exact ⟨s.usedEvents, rfl⟩


/-- C4: the abandoned flag is one-way.  Across every engine operation —
travel, the party morale update, rest, the fail check, effects, forage,
the shop, the arrival check, the event selector — a member abandoned
before the call is still abandoned after it, and its doubting flag is
never switched back on. -/
theorem abandoned_one_way
    (theme : Theme) (s : GameState) (rand : Rand) (itemId : String) (days : ℚ)
    (effs : Option (List (String × ℚ))) (hist : List HistoryEntry) :
    keepsAbandoned s.party (travel theme s rand).2.1.party ∧
    keepsAbandoned s.party (updatePartyMorale theme s rand).1.party ∧
    keepsAbandoned s.party (rest s days).2.party ∧
    keepsAbandoned s.party (checkFailConditions theme s rand).2.1.party ∧
    keepsAbandoned s.party (applyEffects theme s effs).party ∧
    keepsAbandoned s.party (forage theme s rand).2.1.party ∧
    keepsAbandoned s.party (buyItem theme s itemId).2.party ∧
    keepsAbandoned s.party (checkLocationArrival theme s).2.party ∧
    keepsAbandoned s.party (getRandomEvent theme s hist rand).2.1.party := by
  refine ⟨keepsAbandoned_of_get (fun i m hm hab => travel_abandoned theme s rand i m hm hab),
    keepsAbandoned_of_get (fun i m hm hab => updatePartyMorale_abandoned theme s rand i m hm hab),
    rest_keeps s days,
    keepsAbandoned_of_get (fun i m hm hab => checkFailConditions_abandoned theme s rand i m hm hab),
    ?_, ?_, ?_, ?_, ?_⟩
  · rw [(applyEffects_party_index theme s effs).1]
    exact keepsAbandoned_refl s.party
  · obtain ⟨r2, fc, hf⟩ := forage_shape theme s rand
    rw [hf]
    exact keepsAbandoned_refl s.party
  · obtain ⟨r2, itms, hb⟩ := buyItem_shape theme s itemId
    rw [hb]
    exact keepsAbandoned_refl s.party
  · rw [(cla_frame theme s).2.2.2.2.1]
    exact keepsAbandoned_refl s.party
  · simp only [getRandomEvent]
    obtain ⟨u, hu⟩ := selectEvent_shape _ s hist rand
    rw [hu]
    exact keepsAbandoned_refl s.party


/-- `cla_index` stated against a named starting index. -/
lemma cla_index_of_eq (theme : Theme) {s₂ : GameState} {n : ℕ}
    (hn : s₂.currentLocationIndex = n) :
    n ≤ (checkLocationArrival theme s₂).2.currentLocationIndex ∧
    (checkLocationArrival theme s₂).2.currentLocationIndex ≤ n + 1 ∧
    ((checkLocationArrival theme s₂).2.currentLocationIndex = n ∨
      (checkLocationArrival theme s₂).2.currentLocationIndex < theme.locations.length) := by
  subst hn
  exact cla_index theme s₂

/-- One day of travel moves the location index forward by at most one and
keeps it valid. -/
lemma travel_index (theme : Theme) (s : GameState) (rand : Rand) :
    s.currentLocationIndex ≤ (travel theme s rand).2.1.currentLocationIndex ∧
    (travel theme s rand).2.1.currentLocationIndex ≤ s.currentLocationIndex + 1 ∧
    ((travel theme s rand).2.1.currentLocationIndex = s.currentLocationIndex ∨
      (travel theme s rand).2.1.currentLocationIndex < theme.locations.length) := by
  simp only [travel]
  refine cla_index_of_eq theme ?_
  simp [updateWeather, updatePartyMorale, apply_ite GameState.currentLocationIndex]

/-- One effect key changes distance exactly by a `distance` delta. -/
lemma applyOneEffect_distance (theme : Theme) (s : GameState) (kv : String × ℚ) :
    (applyOneEffect theme s kv).distance =
      s.distance + (if kv.1 = "distance" then kv.2 else 0) := by
  unfold applyOneEffect
  dsimp only
  split_ifs <;> simp

/-- A whole effects map with nonnegative `distance` deltas never moves the
state backwards. -/
lemma foldl_applyOneEffect_distance (theme : Theme) :
    ∀ (es : List (String × ℚ)) (s : GameState),
      (∀ v : ℚ, ("distance", v) ∈ es → 0 ≤ v) →
      s.distance ≤ (es.foldl (applyOneEffect theme) s).distance := by
  intro es
  induction es with
  | nil => intro s _; exact le_refl _
  | cons kv tl ih =>
    intro s h
    have hstep : s.distance ≤ (applyOneEffect theme s kv).distance := by
      rw [applyOneEffect_distance]
      by_cases hk : kv.1 = "distance"
      · have hv : 0 ≤ kv.2 := by
          refine h kv.2 ?_
          have : ("distance", kv.2) = kv := by
            rw [← hk]
          rw [this]
          exact List.mem_cons_self kv tl
        simp [hk]
        linarith
      · simp [hk]
    calc s.distance ≤ (applyOneEffect theme s kv).distance := hstep
      _ ≤ (tl.foldl (applyOneEffect theme) (applyOneEffect theme s kv)).distance :=
        ih _ (fun v hv => h v (List.mem_cons_of_mem kv hv))
      _ = ((kv :: tl).foldl (applyOneEffect theme) s).distance := by
        rw [List.foldl_cons]

/-- Rest only rewrites resources, the calendar, and the party. -/
lemma rest_shape (s : GameState) (days : ℚ) :
    ∃ r2 mo dy p, (rest s days).2 =
      { s with resources := r2, month := mo, day := dy, party := p } := by
  unfold rest
  split
  · exact ⟨s.resources, s.month, s.day, s.party, rfl⟩
  · dsimp only
    split <;> exact ⟨_, _, _, _, rfl⟩

/-- The paranoia fail branch only rewrites resources, party, and alive. -/
lemma checkParanoiaBranch_shape (theme : Theme) (s : GameState) (rand : Rand) :
    ∃ r2 p al, (checkParanoiaBranch theme s rand).2.1 =
      { s with resources := r2, party := p, alive := al } := by
  unfold checkParanoiaBranch
  split
  · dsimp only
    split
    · split <;> exact ⟨_, _, _, rfl⟩
    · exact ⟨s.resources, s.party, s.alive, rfl⟩
  · exact ⟨s.resources, s.party, s.alive, rfl⟩

/-- The fail check only rewrites resources, party, and alive. -/
lemma checkFailConditions_shape (theme : Theme) (s : GameState) (rand : Rand) :
    ∃ r2 p al, (checkFailConditions theme s rand).2.1 =
      { s with resources := r2, party := p, alive := al } := by
  unfold checkFailConditions
  split
  · exact ⟨_, _, _, rfl⟩
  · split
    · exact ⟨_, _, _, rfl⟩
    · split
      · exact ⟨_, _, _, rfl⟩
      · split
        · exact ⟨_, _, _, rfl⟩
        · split
          · dsimp only
            split
            · split <;> exact ⟨_, _, _, rfl⟩
            · exact checkParanoiaBranch_shape theme s rand
          · exact checkParanoiaBranch_shape theme s rand


/-- C3, amended: distance and the location index never decrease across
travel, forage, rest, the shop, the arrival check and the fail check, and
the index stays a valid location index; `applyEffects` keeps the index
untouched and is monotone in distance provided every `distance` delta in
the map is nonnegative (a negative delta, as the counterexample shows,
moves the state backwards). -/
theorem distance_index_monotone
    (theme : Theme) (s : GameState) (rand : Rand) (itemId : String) (days : ℚ)
    (effs : List (String × ℚ))
    (heff : ∀ v : ℚ, ("distance", v) ∈ effs → 0 ≤ v) :
    (s.distance ≤ (travel theme s rand).2.1.distance ∧
      s.currentLocationIndex ≤ (travel theme s rand).2.1.currentLocationIndex ∧
      (travel theme s rand).2.1.currentLocationIndex ≤ s.currentLocationIndex + 1 ∧
      ((travel theme s rand).2.1.currentLocationIndex = s.currentLocationIndex ∨
        (travel theme s rand).2.1.currentLocationIndex < theme.locations.length)) ∧
    (s.distance ≤ (applyEffects theme s (some effs)).distance ∧
      (applyEffects theme s (some effs)).currentLocationIndex = s.currentLocationIndex) ∧
    ((forage theme s rand).2.1.distance = s.distance ∧
      (forage theme s rand).2.1.currentLocationIndex = s.currentLocationIndex) ∧
    ((rest s days).2.distance = s.distance ∧
      (rest s days).2.currentLocationIndex = s.currentLocationIndex) ∧
    ((buyItem theme s itemId).2.distance = s.distance ∧
      (buyItem theme s itemId).2.currentLocationIndex = s.currentLocationIndex) ∧
    ((checkLocationArrival theme s).2.distance = s.distance ∧
      s.currentLocationIndex ≤ (checkLocationArrival theme s).2.currentLocationIndex ∧
      (checkLocationArrival theme s).2.currentLocationIndex ≤ s.currentLocationIndex + 1 ∧
      ((checkLocationArrival theme s).2.currentLocationIndex = s.currentLocationIndex ∨
        (checkLocationArrival theme s).2.currentLocationIndex < theme.locations.length)) ∧
    ((checkFailConditions theme s rand).2.1.distance = s.distance ∧
      (checkFailConditions theme s rand).2.1.currentLocationIndex = s.currentLocationIndex) := by
  refine ⟨⟨?_, travel_index theme s rand⟩, ⟨?_, (applyEffects_party_index theme s (some effs)).2⟩,
    ?_, ?_, ?_, ⟨(cla_frame theme s).1, cla_index theme s⟩, ?_⟩
  · rw [(travel_proj theme s rand).2.1]
    have := getMilesPerDay_pos s
    linarith
  · simp only [applyEffects]
    have h1 := foldl_applyOneEffect_distance theme effs s heff
    simpa using h1
  · obtain ⟨r2, fc, hf⟩ := forage_shape theme s rand
    rw [hf]
    exact ⟨rfl, rfl⟩
  · obtain ⟨r2, mo, dy, p, hr⟩ := rest_shape s days
    rw [hr]
    exact ⟨rfl, rfl⟩
  · obtain ⟨r2, itms, hb⟩ := buyItem_shape theme s itemId
    rw [hb]
    exact ⟨rfl, rfl⟩
  · obtain ⟨r2, p, al, hc⟩ := checkFailConditions_shape theme s rand
    rw [hc]
    exact ⟨rfl, rfl⟩

/-- C3, witness: all seven operations at a concrete state of the demo
theme, with the effect map `distance: 5`. -/
theorem distance_index_monotone_witness :
    (lowFuelState.distance ≤ (travel demoTheme lowFuelState [0]).2.1.distance ∧
      lowFuelState.currentLocationIndex ≤ (travel demoTheme lowFuelState [0]).2.1.currentLocationIndex ∧
      (travel demoTheme lowFuelState [0]).2.1.currentLocationIndex ≤ lowFuelState.currentLocationIndex + 1 ∧
      ((travel demoTheme lowFuelState [0]).2.1.currentLocationIndex = lowFuelState.currentLocationIndex ∨
        (travel demoTheme lowFuelState [0]).2.1.currentLocationIndex < demoTheme.locations.length)) ∧
    (lowFuelState.distance ≤ (applyEffects demoTheme lowFuelState (some [("distance", 5)])).distance ∧
      (applyEffects demoTheme lowFuelState (some [("distance", 5)])).currentLocationIndex = lowFuelState.currentLocationIndex) ∧
    ((forage demoTheme lowFuelState [0]).2.1.distance = lowFuelState.distance ∧
      (forage demoTheme lowFuelState [0]).2.1.currentLocationIndex = lowFuelState.currentLocationIndex) ∧
    ((rest lowFuelState 2).2.distance = lowFuelState.distance ∧
      (rest lowFuelState 2).2.currentLocationIndex = lowFuelState.currentLocationIndex) ∧
    ((buyItem demoTheme lowFuelState "gas1").2.distance = lowFuelState.distance ∧
      (buyItem demoTheme lowFuelState "gas1").2.currentLocationIndex = lowFuelState.currentLocationIndex) ∧
    ((checkLocationArrival demoTheme lowFuelState).2.distance = lowFuelState.distance ∧
      lowFuelState.currentLocationIndex ≤ (checkLocationArrival demoTheme lowFuelState).2.currentLocationIndex ∧
      (checkLocationArrival demoTheme lowFuelState).2.currentLocationIndex ≤ lowFuelState.currentLocationIndex + 1 ∧
      ((checkLocationArrival demoTheme lowFuelState).2.currentLocationIndex = lowFuelState.currentLocationIndex ∨
        (checkLocationArrival demoTheme lowFuelState).2.currentLocationIndex < demoTheme.locations.length)) ∧
    ((checkFailConditions demoTheme lowFuelState [0]).2.1.distance = lowFuelState.distance ∧
      (checkFailConditions demoTheme lowFuelState [0]).2.1.currentLocationIndex = lowFuelState.currentLocationIndex) :=
  distance_index_monotone demoTheme lowFuelState [0] "gas1" 2 [("distance", 5)]
    (by intro v hv; simp at hv; rw [hv]; norm_num)


/-- C9: restoring a snapshot whose recorded theme name differs from the
active theme's is the thrown error (functionally: no new engine state is
produced, the current one stays); a matching name replaces the state and
the event history with the snapshot's; in particular restoring an engine's
own snapshot reproduces that engine exactly. -/
theorem loadGame_theme_identity_guard (e : Engine) (d : SaveData) (now : ℕ) :
    (loadGame e d =
      if d.themeName = e.theme.name then
        Except.ok { e with state := d.state
                           eventHistory := d.eventHistory.getD [] }
      else Except.error "Save file is for a different theme") ∧
      loadGame e (saveGame e now) = Except.ok e := by
  constructor
  · rfl
  · simp [loadGame, saveGame]

end Trail
